import Mathlib

/-!
# memdl: loading a shared library from a memory buffer

A shallow embedding of `src/memdl.c` (with the constants of `src/memdl.h`).

* A byte (`unsigned char`) is a `Fin 256`.
* A buffer argument `(so_data, so_size)` is an `Option (List Byte)` (`none` is the
  NULL pointer) together with the size the caller passes.  A read `data[i]` is
  `data[i]?`: a read past the end of the buffer has no defined result and the
  embedded function returns `none` there.
* A C string is the `String` of its characters before the terminating NUL; a
  `const char *` that may be NULL is an `Option String`.
* The process-wide error slot `memdl_error_msg` is a `String`; the empty string is
  the state in which `memdl_error_msg[0]` is 0.
* Pointers returned by the native loader (`void *`, `HMODULE`) are natural numbers,
  0 being NULL.
* The operating system is an explicit record of what each native call returns,
  and every native call is appended to a trace.
-/

namespace Memdl

/-! ## Constants of `memdl.h` -/

def MEMDL_ARCH_UNKNOWN : Int := 0
def MEMDL_ARCH_X86 : Int := 1
def MEMDL_ARCH_X86_64 : Int := 2
def MEMDL_ARCH_ARM : Int := 3
def MEMDL_ARCH_ARM64 : Int := 4

def MEMDL_NOW : Int := 0x1
def MEMDL_LAZY : Int := 0x2
def MEMDL_LOCAL : Int := 0x4
def MEMDL_GLOBAL : Int := 0x8

/-! ## Bytes, buffers, host byte order -/

/-- An `unsigned char`. -/
abbrev Byte := Fin 256

/-- A pointer value; 0 is NULL. -/
abbrev Ptr := Nat

def NULL : Ptr := 0

/-- Byte order of the host, which decides the value of `*(const uint32_t *) data`. -/
inductive Endian where
  | little
  | big
  deriving DecidableEq, Repr

/-- The test `data[i] == v`; `none` when index `i` is outside the buffer. -/
def byte_eq (data : List Byte) (i : Nat) (v : Byte) : Option Bool :=
  (data[i]?).map fun b => decide (b = v)

/-- C's `a && b`: `b` is evaluated only when `a` is true. -/
def c_and (a b : Option Bool) : Option Bool :=
  a.bind fun x => if x then b else some false

/-- The condition `data[0] == 0x7F && data[1] == 'E' && data[2] == 'L' && data[3] == 'F'`
(memdl.c lines 123-124 and 154). -/
def elf_magic (data : List Byte) : Option Bool :=
  c_and (byte_eq data 0 0x7F)
    (c_and (byte_eq data 1 0x45) (c_and (byte_eq data 2 0x4C) (byte_eq data 3 0x46)))

/-- The load `*(const uint32_t *) data` (memdl.c line 129): the four bytes at offsets
0..3 assembled in the byte order of the host. -/
def load_u32 (host : Endian) (data : List Byte) : Option Nat :=
  (data[0]?).bind fun b0 =>
  (data[1]?).bind fun b1 =>
  (data[2]?).bind fun b2 =>
  (data[3]?).bind fun b3 =>
    match host with
    | Endian.little => some (b0.val + 256 * b1.val + 65536 * b2.val + 16777216 * b3.val)
    | Endian.big => some (b3.val + 256 * b2.val + 65536 * b1.val + 16777216 * b0.val)

/-- The condition `data[0] == 'M' && data[1] == 'Z'` (memdl.c line 137). -/
def mz_magic (data : List Byte) : Option Bool :=
  c_and (byte_eq data 0 0x4D) (byte_eq data 1 0x5A)

/-! ## The error slot -/

/-- The `memdl_set_error` of memdl.c lines 84-87: `strncpy` of at most 255 characters
into the 256-byte slot, then a terminating NUL at index 255.  The result is the new
content of the slot. -/
def memdl_set_error (msg : String) (_memdl_error_msg : String) : String :=
  String.mk (msg.data.take 255)

/-- The `memdl_error` of memdl.c lines 497-499. -/
def memdl_error (memdl_error_msg : String) : String :=
  if memdl_error_msg.data ≠ [] then memdl_error_msg else "No error"

/-! ## Format validation and architecture detection -/

/-- The `memdl_validate` of memdl.c lines 114-143.  The result is the returned `int`
and the content of the error slot after the call. -/
def memdl_validate (host : Endian) (so_data : Option (List Byte)) (so_size : Nat)
    (err : String) : Option (Int × String) :=
  match so_data with
  | none => some (-1, memdl_set_error "Invalid data or size" err)
  | some data =>
    if so_size < 4 then some (-1, memdl_set_error "Invalid data or size" err)
    else
      (elf_magic data).bind fun elf =>
      if elf then some (0, err)
      else
        (load_u32 host data).bind fun magic =>
        if magic = 0xFEEDFACE ∨ magic = 0xFEEDFACF ∨
            magic = 0xCEFAEDFE ∨ magic = 0xCFFAEDFE then some (0, err)
        else
          (mz_magic data).bind fun mz =>
          if mz then some (0, err)
          else some (-1, memdl_set_error "Not a valid executable format" err)

/-- The `memdl_get_arch` of memdl.c lines 146-172.  The result is the returned `int`
and the content of the error slot after the call. -/
def memdl_get_arch (host : Endian) (so_data : Option (List Byte)) (so_size : Nat)
    (err : String) : Option (Int × String) :=
  (memdl_validate host so_data so_size err).bind fun v =>
  if v.1 ≠ 0 then some (MEMDL_ARCH_UNKNOWN, v.2)
  else
    match so_data with
    | none => none
    | some data =>
      (elf_magic data).bind fun elf =>
      if elf then
        (data[4]?).map fun b =>
          (if b = 1 then MEMDL_ARCH_X86
           else if b = 2 then MEMDL_ARCH_X86_64
           else if b = 40 then MEMDL_ARCH_ARM
           else if b = 183 then MEMDL_ARCH_ARM64
           else MEMDL_ARCH_UNKNOWN, v.2)
      else some (MEMDL_ARCH_UNKNOWN, v.2)

/-! ## The operating system

Every native call is recorded in a trace.  What a call returns is given by an
oracle: a function of the calls made so far and of the arguments of the call, so
that no assumption is made on the behaviour of the platform.  The model keeps the
two resources the loader allocates: temporary files and open descriptors (file
handles on Windows). -/

/-- A native call with its arguments. -/
inductive Call where
  | memfd_create (name : String) (mfd_flags : Nat)
  | write (fd : Int) (buf : Option (List Byte)) (count : Nat)
  | lseek (fd : Int) (offset : Int) (whence : Nat)
  | dlopen (path : String) (dl_flags : Int)
  | android_dlopen_ext (path : String) (dl_flags : Int) (library_fd : Int)
  | close (fd : Int)
  | mkstemp (template : String)
  | unlink (path : String)
  | dlerror
  | dlsym (handle : Ptr) (symbol : Option String)
  | dlclose (handle : Ptr)
  | system_property_get (name : String)
  | GetTempPathA (len : Nat)
  | GetTempFileNameA (dir : String) (pfx : String) (unique : Nat)
  | CreateFileA (path : String)
  | WriteFile (h : Int) (buf : Option (List Byte)) (count : Nat)
  | CloseHandle (h : Int)
  | DeleteFileA (path : String)
  | LoadLibraryA (path : String)
  | GetLastError
  | GetProcAddress (handle : Ptr) (symbol : Option String)
  | FreeLibrary (handle : Ptr)
  deriving DecidableEq, Repr

/-- The state the library acts on: its error slot, the temporary files that exist,
the descriptors (or file handles) that are open, and the native calls made so far. -/
structure World where
  err : String
  files : List String
  fds : List Int
  trace : List Call
  deriving DecidableEq, Repr

/-- Append a native call to the trace. -/
def World.log (w : World) (c : Call) : World :=
  { w with trace := w.trace ++ [c] }

/-- The values of the four `RTLD_*` constants of the platform's `<dlfcn.h>`. -/
structure Dlfcn where
  RTLD_LAZY : Int
  RTLD_NOW : Int
  RTLD_LOCAL : Int
  RTLD_GLOBAL : Int

/-- What the native calls of a Unix-like platform return, given the calls made so far.
`mkstemp` returns the descriptor and the content of the template buffer after the
call; `dlerror` is called only after a failed native call, where it returns a text. -/
structure UnixOS where
  memfd_create : List Call → String → Nat → Int
  write : List Call → Int → Option (List Byte) → Nat → Int
  dlopen : List Call → String → Int → Ptr
  android_dlopen_ext : List Call → String → Int → Int → Ptr
  mkstemp : List Call → String → Int × String
  dlerror : List Call → String
  dlsym : List Call → Ptr → Option String → Ptr
  dlclose : List Call → Ptr → Int
  system_property_get : List Call → String → Int × String
  atoi : String → Int

def MFD_CLOEXEC : Nat := 0x0001

def SEEK_SET : Nat := 0

/-- The cast `(ssize_t) so_size` on a 64-bit platform. -/
def ssize_t_of (n : Nat) : Int := Int.bmod n (2 ^ 64)

/-- The call `syscall(SYS_memfd_create, name, flags)`: a non-negative result is a
new open descriptor. -/
def sys_memfd_create (os : UnixOS) (name : String) (mfd_flags : Nat) (w : World) :
    Int × World :=
  let fd := os.memfd_create w.trace name mfd_flags
  let w1 := w.log (Call.memfd_create name mfd_flags)
  (fd, if 0 ≤ fd then { w1 with fds := fd :: w1.fds } else w1)

/-- The call `write(fd, buf, count)`. -/
def sys_write (os : UnixOS) (fd : Int) (buf : Option (List Byte)) (count : Nat) (w : World) :
    Int × World :=
  (os.write w.trace fd buf count, w.log (Call.write fd buf count))

/-- The call `lseek(fd, offset, whence)`, whose result the library ignores. -/
def sys_lseek (fd : Int) (offset : Int) (whence : Nat) (w : World) : World :=
  w.log (Call.lseek fd offset whence)

/-- The call `dlopen(path, dl_flags)`. -/
def sys_dlopen (os : UnixOS) (path : String) (dl_flags : Int) (w : World) : Ptr × World :=
  (os.dlopen w.trace path dl_flags, w.log (Call.dlopen path dl_flags))

/-- The call `android_dlopen_ext(path, dl_flags, &info)` with
`info.flags = ANDROID_DLEXT_USE_LIBRARY_FD` and `info.library_fd = library_fd`. -/
def sys_android_dlopen_ext (os : UnixOS) (path : String) (dl_flags : Int) (library_fd : Int)
    (w : World) : Ptr × World :=
  (os.android_dlopen_ext w.trace path dl_flags library_fd,
    w.log (Call.android_dlopen_ext path dl_flags library_fd))

/-- The call `close(fd)`: the descriptor is no longer open. -/
def sys_close (fd : Int) (w : World) : World :=
  { w.log (Call.close fd) with fds := w.fds.erase fd }

/-- The call `mkstemp(template)`: on a non-negative result the file named by the
rewritten template exists and the returned descriptor is open on it. -/
def sys_mkstemp (os : UnixOS) (template : String) (w : World) : (Int × String) × World :=
  let r := os.mkstemp w.trace template
  let w1 := w.log (Call.mkstemp template)
  (r, if 0 ≤ r.1 then { w1 with files := r.2 :: w1.files, fds := r.1 :: w1.fds } else w1)

/-- The call `unlink(path)`: the file no longer exists. -/
def sys_unlink (path : String) (w : World) : World :=
  { w.log (Call.unlink path) with files := w.files.erase path }

/-- The call `dlerror()`. -/
def sys_dlerror (os : UnixOS) (w : World) : String × World :=
  (os.dlerror w.trace, w.log Call.dlerror)

/-- The call `dlsym(handle, symbol)`. -/
def sys_dlsym (os : UnixOS) (handle : Ptr) (symbol : Option String) (w : World) :
    Ptr × World :=
  (os.dlsym w.trace handle symbol, w.log (Call.dlsym handle symbol))

/-- The call `dlclose(handle)`. -/
def sys_dlclose (os : UnixOS) (handle : Ptr) (w : World) : Int × World :=
  (os.dlclose w.trace handle, w.log (Call.dlclose handle))

/-- Store a new text in the error slot of the world. -/
def World.set_error (w : World) (msg : String) : World :=
  { w with err := memdl_set_error msg w.err }

/-! ## Linux backend (memdl.c lines 409-492) -/

namespace Linux

/-- The `memdl_open_file` of memdl.c lines 411-415. -/
def memdl_open_file (k : Dlfcn) (os : UnixOS) (filename : String) (flags : Int)
    (w : World) : Ptr × World :=
  let dl_flags := Int.lor
    (if Int.land flags MEMDL_NOW ≠ 0 then k.RTLD_NOW else k.RTLD_LAZY)
    (if Int.land flags MEMDL_LOCAL ≠ 0 then k.RTLD_LOCAL else k.RTLD_GLOBAL)
  sys_dlopen os filename dl_flags w

/-- The first strategy of `memdl_open`, memdl.c lines 431-446: an anonymous in-memory
descriptor loaded through its path under /proc.  `some handle` is the `return handle`
of line 442; `none` means that control reaches line 448. -/
def memfd_strategy (os : UnixOS) (so_data : Option (List Byte)) (so_size : Nat)
    (dl_flags : Int) (w : World) : Option Ptr × World :=
  let m := sys_memfd_create os "memdl_lib" MFD_CLOEXEC w
  let fd := m.1
  if 0 ≤ fd then
    let wr := sys_write os fd so_data so_size m.2
    if wr.1 = ssize_t_of so_size then
      let w3 := sys_lseek fd 0 SEEK_SET wr.2
      let fd_path := "/proc/self/fd/" ++ toString fd
      let d := sys_dlopen os fd_path dl_flags w3
      let w5 := sys_close fd d.2
      if d.1 ≠ NULL then (some d.1, w5) else (none, w5)
    else (none, sys_close fd wr.2)
  else (none, m.2)

/-- The fallback of `memdl_open`, memdl.c lines 448-467: a temporary file. -/
def tmpfile_strategy (os : UnixOS) (so_data : Option (List Byte)) (so_size : Nat)
    (dl_flags : Int) (w : World) : Ptr × World :=
  let t := sys_mkstemp os "/tmp/memdl_tmp" w
  let fd := t.1.1
  let template := t.1.2
  if 0 ≤ fd then
    let wr := sys_write os fd so_data so_size t.2
    if wr.1 = ssize_t_of so_size then
      let d := sys_dlopen os template dl_flags wr.2
      let w3 := sys_close fd (sys_unlink template d.2)
      if d.1 = NULL then
        let e := sys_dlerror os w3
        (d.1, e.2.set_error e.1)
      else (d.1, w3)
    else
      (NULL, (sys_unlink template (sys_close fd wr.2)).set_error "All loading methods failed")
  else (NULL, t.2.set_error "All loading methods failed")

/-- The `memdl_open` of memdl.c lines 417-468. -/
def memdl_open (host : Endian) (k : Dlfcn) (os : UnixOS) (so_data : Option (List Byte))
    (so_size : Nat) (flags : Int) (w : World) : Option (Ptr × World) :=
  (memdl_validate host so_data so_size w.err).map fun (v : Int × String) =>
  let w0 : World := { w with err := v.2 }
  if v.1 ≠ 0 then (NULL, w0)
  else
    let dl_flags := Int.lor
      (if Int.land flags MEMDL_NOW ≠ 0 then k.RTLD_NOW else k.RTLD_LAZY)
      (if Int.land flags MEMDL_LOCAL ≠ 0 then k.RTLD_LOCAL else k.RTLD_GLOBAL)
    let s1 := memfd_strategy os so_data so_size dl_flags w0
    match s1.1 with
    | some handle => (handle, s1.2)
    | none => tmpfile_strategy os so_data so_size dl_flags s1.2

/-- The `memdl_sym` of memdl.c lines 470-480. -/
def memdl_sym (os : UnixOS) (handle : Ptr) (symbol : Option String) (w : World) :
    Ptr × World :=
  if handle = NULL then (NULL, w.set_error "Invalid handle")
  else
    let s := sys_dlsym os handle symbol w
    if s.1 = NULL then
      let e := sys_dlerror os s.2
      (s.1, e.2.set_error e.1)
    else (s.1, s.2)

/-- The `memdl_close` of memdl.c lines 482-492. -/
def memdl_close (os : UnixOS) (handle : Ptr) (w : World) : Int × World :=
  if handle = NULL then (-1, w.set_error "Invalid handle")
  else
    let r := sys_dlclose os handle w
    if r.1 ≠ 0 then
      let e := sys_dlerror os r.2
      (r.1, e.2.set_error e.1)
    else (r.1, r.2)

end Linux

/-! ## macOS / iOS backend (memdl.c lines 347-407) -/

namespace MacOS

/-- The `memdl_open_file` of memdl.c lines 349-353. -/
def memdl_open_file (k : Dlfcn) (os : UnixOS) (filename : String) (flags : Int)
    (w : World) : Ptr × World :=
  let dl_flags := Int.lor
    (if Int.land flags MEMDL_NOW ≠ 0 then k.RTLD_NOW else k.RTLD_LAZY)
    (if Int.land flags MEMDL_LOCAL ≠ 0 then k.RTLD_LOCAL else k.RTLD_GLOBAL)
  sys_dlopen os filename dl_flags w

/-- The one strategy of `memdl_open`, memdl.c lines 363-382: a temporary file. -/
def tmpfile_strategy (os : UnixOS) (so_data : Option (List Byte)) (so_size : Nat)
    (dl_flags : Int) (w : World) : Ptr × World :=
  let t := sys_mkstemp os "/tmp/memdl_tmp" w
  let fd := t.1.1
  let template := t.1.2
  if 0 ≤ fd then
    let wr := sys_write os fd so_data so_size t.2
    if wr.1 = ssize_t_of so_size then
      let d := sys_dlopen os template dl_flags wr.2
      let w3 := sys_close fd (sys_unlink template d.2)
      if d.1 = NULL then
        let e := sys_dlerror os w3
        (d.1, e.2.set_error e.1)
      else (d.1, w3)
    else
      (NULL, (sys_unlink template (sys_close fd wr.2)).set_error "Failed to load library")
  else (NULL, t.2.set_error "Failed to load library")

/-- The `memdl_open` of memdl.c lines 355-383. -/
def memdl_open (host : Endian) (k : Dlfcn) (os : UnixOS) (so_data : Option (List Byte))
    (so_size : Nat) (flags : Int) (w : World) : Option (Ptr × World) :=
  (memdl_validate host so_data so_size w.err).map fun (v : Int × String) =>
  let w0 : World := { w with err := v.2 }
  if v.1 ≠ 0 then (NULL, w0)
  else
    let dl_flags := Int.lor
      (if Int.land flags MEMDL_NOW ≠ 0 then k.RTLD_NOW else k.RTLD_LAZY)
      (if Int.land flags MEMDL_LOCAL ≠ 0 then k.RTLD_LOCAL else k.RTLD_GLOBAL)
    tmpfile_strategy os so_data so_size dl_flags w0

/-- The `memdl_sym` of memdl.c lines 385-395. -/
def memdl_sym (os : UnixOS) (handle : Ptr) (symbol : Option String) (w : World) :
    Ptr × World :=
  if handle = NULL then (NULL, w.set_error "Invalid handle")
  else
    let s := sys_dlsym os handle symbol w
    if s.1 = NULL then
      let e := sys_dlerror os s.2
      (s.1, e.2.set_error e.1)
    else (s.1, s.2)

/-- The `memdl_close` of memdl.c lines 397-407. -/
def memdl_close (os : UnixOS) (handle : Ptr) (w : World) : Int × World :=
  if handle = NULL then (-1, w.set_error "Invalid handle")
  else
    let r := sys_dlclose os handle w
    if r.1 ≠ 0 then
      let e := sys_dlerror os r.2
      (r.1, e.2.set_error e.1)
    else (r.1, r.2)

end MacOS

/-! ## Android backend (memdl.c lines 249-345) -/

namespace Android

/-- The `is_android_7_plus` of memdl.c lines 251-257, with the world after the
property read. -/
def is_android_7_plus (os : UnixOS) (w : World) : Bool × World :=
  let p := os.system_property_get w.trace "ro.build.version.sdk"
  let w1 := w.log (Call.system_property_get "ro.build.version.sdk")
  if p.1 ≤ 0 then (false, w1) else (decide (24 ≤ os.atoi p.2), w1)

/-- The `memdl_open_file` of memdl.c lines 259-263. -/
def memdl_open_file (k : Dlfcn) (os : UnixOS) (filename : String) (flags : Int)
    (w : World) : Ptr × World :=
  let dl_flags := Int.lor
    (if Int.land flags MEMDL_NOW ≠ 0 then k.RTLD_NOW else k.RTLD_LAZY)
    (if Int.land flags MEMDL_LOCAL ≠ 0 then k.RTLD_LOCAL else k.RTLD_GLOBAL)
  sys_dlopen os filename dl_flags w

/-- The first strategy of `memdl_open`, memdl.c lines 273-299, tried on Android 7 and
later: an anonymous in-memory descriptor handed to `android_dlopen_ext`.  `some handle`
is the `return handle` of line 294; `none` means that control reaches line 301. -/
def memfd_strategy (os : UnixOS) (so_data : Option (List Byte)) (so_size : Nat)
    (dl_flags : Int) (w : World) : Option Ptr × World :=
  let a := is_android_7_plus os w
  if a.1 then
    let m := sys_memfd_create os "memdl_lib" MFD_CLOEXEC a.2
    let fd := m.1
    if 0 ≤ fd then
      let wr := sys_write os fd so_data so_size m.2
      if wr.1 = ssize_t_of so_size then
        let w3 := sys_lseek fd 0 SEEK_SET wr.2
        let d := sys_android_dlopen_ext os "/memfd" dl_flags fd w3
        let w5 := sys_close fd d.2
        if d.1 ≠ NULL then (some d.1, w5) else (none, w5)
      else (none, sys_close fd wr.2)
    else (none, m.2)
  else (none, a.2)

/-- The fallback of `memdl_open`, memdl.c lines 301-320: a temporary file.  The function
`set_error` that this backend calls is not defined in the source; it is the parameter
`set_error`, which maps a message and the error slot to the new error slot. -/
def tmpfile_strategy (set_error : String → String → String) (os : UnixOS)
    (so_data : Option (List Byte)) (so_size : Nat) (dl_flags : Int) (w : World) :
    Ptr × World :=
  let t := sys_mkstemp os "/data/local/tmp/memdl_tmp" w
  let fd := t.1.1
  let template := t.1.2
  if 0 ≤ fd then
    let wr := sys_write os fd so_data so_size t.2
    if wr.1 = ssize_t_of so_size then
      let d := sys_dlopen os template dl_flags wr.2
      let w3 := sys_close fd (sys_unlink template d.2)
      if d.1 = NULL then
        let e := sys_dlerror os w3
        (d.1, { e.2 with err := set_error e.1 e.2.err })
      else (d.1, w3)
    else
      let w3 := sys_unlink template (sys_close fd wr.2)
      (NULL, { w3 with err := set_error "All loading methods failed" w3.err })
  else (NULL, { t.2 with err := set_error "All loading methods failed" t.2.err })

/-- The `memdl_open` of memdl.c lines 265-321. -/
def memdl_open (set_error : String → String → String) (host : Endian) (k : Dlfcn)
    (os : UnixOS) (so_data : Option (List Byte)) (so_size : Nat) (flags : Int)
    (w : World) : Option (Ptr × World) :=
  (memdl_validate host so_data so_size w.err).map fun (v : Int × String) =>
  let w0 : World := { w with err := v.2 }
  if v.1 ≠ 0 then (NULL, w0)
  else
    let dl_flags := Int.lor
      (if Int.land flags MEMDL_NOW ≠ 0 then k.RTLD_NOW else k.RTLD_LAZY)
      (if Int.land flags MEMDL_LOCAL ≠ 0 then k.RTLD_LOCAL else k.RTLD_GLOBAL)
    let s1 := memfd_strategy os so_data so_size dl_flags w0
    match s1.1 with
    | some handle => (handle, s1.2)
    | none => tmpfile_strategy set_error os so_data so_size dl_flags s1.2

end Android

/-! ## Windows backend (memdl.c lines 175-247) -/

/-- What the native calls of Windows return, given the calls made so far.
`GetTempPathA` and `GetTempFileNameA` return their result and the content of the
output buffer; `WriteFile` returns its result and the value stored in `written`. -/
structure WinOS where
  GetTempPathA : List Call → Nat → Nat × String
  GetTempFileNameA : List Call → String → String → Nat → Nat × String
  CreateFileA : List Call → String → Int
  WriteFile : List Call → Int → Option (List Byte) → Nat → Bool × Nat
  LoadLibraryA : List Call → String → Ptr
  GetLastError : List Call → Nat
  GetProcAddress : List Call → Ptr → Option String → Ptr
  FreeLibrary : List Call → Ptr → Bool

def MAX_PATH : Nat := 260

def INVALID_HANDLE_VALUE : Int := -1

/-- The call `GetTempPathA(len, buffer)`. -/
def sys_GetTempPathA (os : WinOS) (len : Nat) (w : World) : (Nat × String) × World :=
  (os.GetTempPathA w.trace len, w.log (Call.GetTempPathA len))

/-- The call `GetTempFileNameA(dir, pfx, unique, buffer)`: with `unique = 0` a nonzero
result means that an empty file of the returned name has been created. -/
def sys_GetTempFileNameA (os : WinOS) (dir pfx : String) (unique : Nat) (w : World) :
    (Nat × String) × World :=
  let r := os.GetTempFileNameA w.trace dir pfx unique
  let w1 := w.log (Call.GetTempFileNameA dir pfx unique)
  (r, if r.1 ≠ 0 ∧ unique = 0 then { w1 with files := r.2 :: w1.files } else w1)

/-- The call `CreateFileA(path, GENERIC_WRITE, 0, NULL, CREATE_ALWAYS,
FILE_ATTRIBUTE_NORMAL, NULL)`: a result other than `INVALID_HANDLE_VALUE` is a new open
handle on the file, which is created when it does not exist. -/
def sys_CreateFileA (os : WinOS) (path : String) (w : World) : Int × World :=
  let h := os.CreateFileA w.trace path
  let w1 := w.log (Call.CreateFileA path)
  (h, if h ≠ INVALID_HANDLE_VALUE then
        { w1 with fds := h :: w1.fds,
                  files := if path ∈ w1.files then w1.files else path :: w1.files }
      else w1)

/-- The call `WriteFile(h, buf, count, &written, NULL)`. -/
def sys_WriteFile (os : WinOS) (h : Int) (buf : Option (List Byte)) (count : Nat)
    (w : World) : (Bool × Nat) × World :=
  (os.WriteFile w.trace h buf count, w.log (Call.WriteFile h buf count))

/-- The call `CloseHandle(h)`: the handle is no longer open. -/
def sys_CloseHandle (h : Int) (w : World) : World :=
  { w.log (Call.CloseHandle h) with fds := w.fds.erase h }

/-- The call `DeleteFileA(path)`: the file no longer exists. -/
def sys_DeleteFileA (path : String) (w : World) : World :=
  { w.log (Call.DeleteFileA path) with files := w.files.erase path }

/-- The call `LoadLibraryA(path)`. -/
def sys_LoadLibraryA (os : WinOS) (path : String) (w : World) : Ptr × World :=
  (os.LoadLibraryA w.trace path, w.log (Call.LoadLibraryA path))

/-- The call `GetLastError()`. -/
def sys_GetLastError (os : WinOS) (w : World) : Nat × World :=
  (os.GetLastError w.trace, w.log Call.GetLastError)

/-- The call `GetProcAddress(handle, symbol)`. -/
def sys_GetProcAddress (os : WinOS) (handle : Ptr) (symbol : Option String) (w : World) :
    Ptr × World :=
  (os.GetProcAddress w.trace handle symbol, w.log (Call.GetProcAddress handle symbol))

/-- The call `FreeLibrary(handle)`. -/
def sys_FreeLibrary (os : WinOS) (handle : Ptr) (w : World) : Bool × World :=
  (os.FreeLibrary w.trace handle, w.log (Call.FreeLibrary handle))

/-- The `memdl_set_error_format` of memdl.c lines 89-94 at the one format the source
uses, `"LoadLibrary failed: %lu"`: `vsnprintf` keeps at most 255 characters. -/
def memdl_set_error_format (code : Nat) (_memdl_error_msg : String) : String :=
  String.mk (("LoadLibrary failed: " ++ toString code).data.take 255)

namespace Windows

/-- The `memdl_open_file` of memdl.c lines 179-181. -/
def memdl_open_file (os : WinOS) (filename : String) (_flags : Int) (w : World) :
    Ptr × World :=
  sys_LoadLibraryA os filename w

/-- The end of `memdl_open`, memdl.c lines 210-230, reached once `CreateFileA` has
returned the handle `hFile` on `temp_file`: write the buffer, load the file, delete
it. -/
def write_and_load (os : WinOS) (so_data : Option (List Byte)) (so_size : Nat)
    (temp_file : String) (hFile : Int) (w : World) : Ptr × World :=
  let wr := sys_WriteFile os hFile so_data (so_size % 2 ^ 32) w
  let written := wr.1.2
  if wr.1.1 = false ∨ written ≠ so_size then
    (NULL, (sys_DeleteFileA temp_file (sys_CloseHandle hFile wr.2)).set_error
      "Failed to write temp file")
  else
    let w5 := sys_CloseHandle hFile wr.2
    let l := sys_LoadLibraryA os temp_file w5
    let handle := l.1
    let w7 := sys_DeleteFileA temp_file l.2
    if handle = NULL then
      let e := sys_GetLastError os w7
      (handle, { e.2 with err := memdl_set_error_format e.1 e.2.err })
    else (handle, w7)

/-- The `memdl_open` of memdl.c lines 183-231. -/
def memdl_open (host : Endian) (os : WinOS) (so_data : Option (List Byte))
    (so_size : Nat) (_flags : Int) (w : World) : Option (Ptr × World) :=
  (memdl_validate host so_data so_size w.err).map fun (v : Int × String) =>
  let w0 : World := { w with err := v.2 }
  if v.1 ≠ 0 then (NULL, w0)
  else
    let p := sys_GetTempPathA os MAX_PATH w0
    let ret := p.1.1
    let temp_path := p.1.2
    if ret = 0 ∨ MAX_PATH < ret then (NULL, p.2.set_error "Failed to get temp path")
    else
      let n := sys_GetTempFileNameA os temp_path "memdl" 0 p.2
      let temp_file := n.1.2
      if n.1.1 = 0 then (NULL, n.2.set_error "Failed to create temp file")
      else
        let c := sys_CreateFileA os temp_file n.2
        let hFile := c.1
        if hFile = INVALID_HANDLE_VALUE then
          (NULL, c.2.set_error "Failed to create temp file")
        else write_and_load os so_data so_size temp_file hFile c.2

/-- The `memdl_sym` of memdl.c lines 233-239. -/
def memdl_sym (os : WinOS) (handle : Ptr) (symbol : Option String) (w : World) :
    Ptr × World :=
  if handle = NULL then (NULL, w.set_error "Invalid handle")
  else sys_GetProcAddress os handle symbol w

/-- The `memdl_close` of memdl.c lines 241-247. -/
def memdl_close (os : WinOS) (handle : Ptr) (w : World) : Int × World :=
  if handle = NULL then (-1, w.set_error "Invalid handle")
  else
    let r := sys_FreeLibrary os handle w
    (if r.1 then 0 else -1, r.2)

end Windows

/-! ## Reference definitions

The definitions below are written from the words of the specification, to be
compared with the functions above. -/

/-- Reference lookup table of the architecture detector: 1 is x86, 2 is x86-64, 40 is
ARM, 183 is ARM64, every other value is Unknown. -/
def arch_table_reference (b : Byte) : Int :=
  if b = 1 then MEMDL_ARCH_X86
  else if b = 2 then MEMDL_ARCH_X86_64
  else if b = 40 then MEMDL_ARCH_ARM
  else if b = 183 then MEMDL_ARCH_ARM64
  else MEMDL_ARCH_UNKNOWN

/-- Reference architecture detector on a buffer: a buffer that begins with the 4-byte
ELF magic is looked up by its byte at index 4; every other buffer is Unknown. -/
def get_arch_reference (data : List Byte) : Int :=
  match data with
  | b0 :: b1 :: b2 :: b3 :: b4 :: _ =>
    if b0 = 0x7F ∧ b1 = 0x45 ∧ b2 = 0x4C ∧ b3 = 0x46 then arch_table_reference b4
    else MEMDL_ARCH_UNKNOWN
  | _ => MEMDL_ARCH_UNKNOWN

/-- Reference flag translation of the Unix-like backends: eager resolution when bit 0x1
(`MEMDL_NOW`) of the flags is set and lazy resolution otherwise, OR-ed with local
visibility when bit 0x4 (`MEMDL_LOCAL`) is set and global visibility otherwise. -/
def dl_flags_reference (k : Dlfcn) (flags : Int) : Int :=
  Int.lor (if flags.testBit 0 then k.RTLD_NOW else k.RTLD_LAZY)
    (if flags.testBit 2 then k.RTLD_LOCAL else k.RTLD_GLOBAL)

/-- The native flags a call hands to the loader: `some` for `dlopen` and
`android_dlopen_ext`, `none` for every other call. -/
def Call.loader_flags : Call → Option Int
  | Call.dlopen _ f => some f
  | Call.android_dlopen_ext _ f _ => some f
  | _ => none

/-! ## Assumptions on the platform and sample platforms -/

/-- Whether the last six characters of a `mkstemp` template are "XXXXXX". -/
def template_ok (t : String) : Bool :=
  t.data.drop (t.data.length - 6) == ['X', 'X', 'X', 'X', 'X', 'X']

/-- The `mkstemp` of POSIX and of glibc: a template whose last six characters are not
"XXXXXX" is rejected with `EINVAL`, the call returns -1 and creates no file. -/
def posix_mkstemp (os : UnixOS) : Prop :=
  ∀ (tr : List Call) (t : String), template_ok t = false → (os.mkstemp tr t).1 = -1

/-- A Linux on which `memfd_create` is denied and everything else works: `mkstemp`
follows POSIX, every `write` is complete, and the native loader loads every file. -/
def linux_memfd_denied : UnixOS where
  memfd_create := fun _ _ _ => -1
  write := fun _ _ _ count => count
  dlopen := fun _ _ _ => 4096
  android_dlopen_ext := fun _ _ _ _ => 4096
  mkstemp := fun _ t =>
    if template_ok t then (3, String.mk (t.data.take (t.data.length - 6) ++ "a1B2c3".data))
    else (-1, t)
  dlerror := fun _ => "file too short"
  dlsym := fun _ _ _ => 0
  dlclose := fun _ _ => 0
  system_property_get := fun _ _ => (2, "30")
  atoi := fun _ => 30

/-- A Linux on which descriptors are created and every `write` is complete, `mkstemp`
follows POSIX, and the native loader and the symbol resolver reject everything. -/
def linux_loader_fails : UnixOS where
  memfd_create := fun _ _ _ => 3
  write := fun _ _ _ count => count
  dlopen := fun _ _ _ => 0
  android_dlopen_ext := fun _ _ _ _ => 0
  mkstemp := fun _ t =>
    if template_ok t then (3, String.mk (t.data.take (t.data.length - 6) ++ "a1B2c3".data))
    else (-1, t)
  dlerror := fun _ => "file too short"
  dlsym := fun _ _ _ => 0
  dlclose := fun _ _ => -1
  system_property_get := fun _ _ => (2, "30")
  atoi := fun _ => 30

/-- A Unix-like platform whose `dlclose` reports failure with the nonzero result 1 (POSIX
asks only for a nonzero result on failure). -/
def unix_dlclose_one : UnixOS where
  memfd_create := fun _ _ _ => 3
  write := fun _ _ _ count => count
  dlopen := fun _ _ _ => 4096
  android_dlopen_ext := fun _ _ _ _ => 4096
  mkstemp := fun _ t => (-1, t)
  dlerror := fun _ => "shared object not open"
  dlsym := fun _ _ _ => 0
  dlclose := fun _ _ => 1
  system_property_get := fun _ _ => (2, "30")
  atoi := fun _ => 30

/-- A Windows on which the temporary file name is created and `CreateFileA` then fails. -/
def windows_create_fails : WinOS where
  GetTempPathA := fun _ _ => (8, "C:/Temp/")
  GetTempFileNameA := fun _ dir pfx _ => (1, dir ++ pfx ++ "1.tmp")
  CreateFileA := fun _ _ => -1
  WriteFile := fun _ _ _ count => (true, count)
  LoadLibraryA := fun _ _ => 4096
  GetLastError := fun _ => 32
  GetProcAddress := fun _ _ _ => 0
  FreeLibrary := fun _ _ => false

/-- The state at process start: empty error slot, no temporary file, no descriptor,
no native call made. -/
def World.start : World := { err := "", files := [], fds := [], trace := [] }

/-- The `RTLD_*` values of glibc. -/
def glibc_dlfcn : Dlfcn :=
  { RTLD_LAZY := 0x1, RTLD_NOW := 0x2, RTLD_LOCAL := 0, RTLD_GLOBAL := 0x100 }

end Memdl

open Memdl

/-! ## Format validation -/

theorem elf_magic_cons4 (a b c d : Byte) (rest : List Byte) :
    elf_magic (a :: b :: c :: d :: rest)
      = some (decide (a = 0x7F ∧ b = 0x45 ∧ c = 0x4C ∧ d = 0x46)) := by
  by_cases ha : a = 0x7F <;> by_cases hb : b = 0x45 <;> by_cases hc : c = 0x4C <;>
    simp [elf_magic, c_and, byte_eq, ha, hb, hc]

theorem mz_magic_cons2 (a b : Byte) (rest : List Byte) :
    mz_magic (a :: b :: rest) = some (decide (a = 0x4D ∧ b = 0x5A)) := by
  by_cases ha : a = 0x4D <;> simp [mz_magic, c_and, byte_eq, ha]

theorem load_u32_cons4 (host : Endian) (a b c d : Byte) (rest : List Byte) :
    load_u32 host (a :: b :: c :: d :: rest)
      = some (match host with
          | Endian.little => a.val + 256 * b.val + 65536 * c.val + 16777216 * d.val
          | Endian.big => d.val + 256 * c.val + 65536 * b.val + 16777216 * a.val) := by
  cases host <;> simp [load_u32]

theorem validate_short (host : Endian) (data : List Byte) (n : Nat) (err : String)
    (h : n < 4) :
    memdl_validate host (some data) n err
      = some (-1, memdl_set_error "Invalid data or size" err) := by
  simp [memdl_validate, h]

theorem validate_cons4 (host : Endian) (a b c d : Byte) (rest : List Byte) (n : Nat)
    (err : String) (h : 4 ≤ n) :
    memdl_validate host (some (a :: b :: c :: d :: rest)) n err
      = some (if (a = 0x7F ∧ b = 0x45 ∧ c = 0x4C ∧ d = 0x46) ∨
                (∃ m, load_u32 host (a :: b :: c :: d :: rest) = some m ∧
                  (m = 0xFEEDFACE ∨ m = 0xFEEDFACF ∨ m = 0xCEFAEDFE ∨ m = 0xCFFAEDFE)) ∨
                (a = 0x4D ∧ b = 0x5A)
              then (0, err)
              else (-1, memdl_set_error "Not a valid executable format" err)) := by
  have hn : ¬ n < 4 := by omega
  simp only [memdl_validate, hn, if_false, elf_magic_cons4, mz_magic_cons2, load_u32_cons4,
    Option.bind_some, Option.some.injEq, exists_eq_left']
  by_cases h1 : (a = 0x7F ∧ b = 0x45 ∧ c = 0x4C ∧ d = 0x46)
  · simp [h1]
  · by_cases h2 : a = 0x4D ∧ b = 0x5A
    · simp [h1, h2]
    · simp [h1, h2]
      split_ifs <;> rfl


theorem take4_cons (a b c d : Byte) (rest : List Byte) :
    (a :: b :: c :: d :: rest).take 4 = [a, b, c, d] := by simp

/-- C1: `memdl_validate` returns -1 on a NULL buffer whatever the size; on a buffer
passed with its length it returns 0 or -1, and 0 exactly when the length is at least 4
and bytes 0..3 are 0x7F 'E' 'L' 'F', or the 32-bit word loaded from bytes 0..3 is one
of 0xFEEDFACE, 0xFEEDFACF, 0xCEFAEDFE, 0xCFFAEDFE, or bytes 0..1 are 'M' 'Z'; two
buffers of length at least 4 that agree on their first four bytes get the same
result. -/
theorem memdl_validate_accepts_iff (host : Endian) (err : String) :
    (∀ n : Nat, (memdl_validate host none n err).map Prod.fst = some (-1)) ∧
    (∀ data : List Byte, ∃ r : Int × String,
      memdl_validate host (some data) data.length err = some r ∧
      (r.1 = 0 ∨ r.1 = -1) ∧
      (r.1 = 0 ↔ 4 ≤ data.length ∧
        (data.take 4 = [0x7F, 0x45, 0x4C, 0x46] ∨
         (∃ m, load_u32 host data = some m ∧
            (m = 0xFEEDFACE ∨ m = 0xFEEDFACF ∨ m = 0xCEFAEDFE ∨ m = 0xCFFAEDFE)) ∨
         data.take 2 = [0x4D, 0x5A]))) ∧
    (∀ d1 d2 : List Byte, 4 ≤ d1.length → 4 ≤ d2.length → d1.take 4 = d2.take 4 →
      memdl_validate host (some d1) d1.length err
        = memdl_validate host (some d2) d2.length err) := by
  refine ⟨fun n => by simp [memdl_validate], fun data => ?_, fun d1 d2 h1 h2 h => ?_⟩
  · by_cases hlen : data.length < 4
    · refine ⟨_, validate_short host data _ err hlen, Or.inr rfl, ?_⟩
      constructor
      · intro h; simp at h
      · intro h; omega
    · obtain ⟨a, b, c, d, rest, rfl⟩ : ∃ a b c d rest, data = a :: b :: c :: d :: rest := by
        rcases data with _ | ⟨a, _ | ⟨b, _ | ⟨c, _ | ⟨d, rest⟩⟩⟩⟩ <;> simp at hlen
        exact ⟨a, b, c, d, rest, rfl⟩
      have h4 : 4 ≤ (a :: b :: c :: d :: rest).length := by simp
      refine ⟨_, validate_cons4 host a b c d rest _ err h4, ?_, ?_⟩
      · split_ifs <;> simp
      · have e1 : (a :: b :: c :: d :: rest).take 4 = [0x7F, 0x45, 0x4C, 0x46]
            ↔ (a = 0x7F ∧ b = 0x45 ∧ c = 0x4C ∧ d = 0x46) := by simp
        have e2 : (a :: b :: c :: d :: rest).take 2 = [0x4D, 0x5A]
            ↔ (a = 0x4D ∧ b = 0x5A) := by simp
        rw [e1, e2]
        split_ifs with hc
        · simp [h4, hc]
        · simp only [h4, true_and]
          constructor
          · intro h; simp at h
          · intro h; exact absurd h hc
  · obtain ⟨a, b, c, d, r1, rfl⟩ : ∃ a b c d rest, d1 = a :: b :: c :: d :: rest := by
      rcases d1 with _ | ⟨a, _ | ⟨b, _ | ⟨c, _ | ⟨d, rest⟩⟩⟩⟩ <;> simp at h1
      exact ⟨a, b, c, d, rest, rfl⟩
    obtain ⟨a2, b2, c2, e2, r2, rfl⟩ : ∃ a b c d rest, d2 = a :: b :: c :: d :: rest := by
      rcases d2 with _ | ⟨a, _ | ⟨b, _ | ⟨c, _ | ⟨d, rest⟩⟩⟩⟩ <;> simp at h2
      exact ⟨a, b, c, d, rest, rfl⟩
    simp only [take4_cons, List.cons.injEq, and_true] at h
    obtain ⟨rfl, rfl, rfl, rfl⟩ := h
    rw [validate_cons4 host _ _ _ _ r1 _ err h1, validate_cons4 host _ _ _ _ r2 _ err h2]
    simp only [load_u32_cons4]

/-- Witness of C1: on a big-endian host two buffers that start with the Mach-O magic
CF FA ED FE and differ afterwards get the same result. -/
theorem memdl_validate_accepts_iff_witness :
    memdl_validate Endian.big (some [0xCF, 0xFA, 0xED, 0xFE, 1]) 5 ""
      = memdl_validate Endian.big (some [0xCF, 0xFA, 0xED, 0xFE, 2, 3]) 6 "" :=
  (memdl_validate_accepts_iff Endian.big "").2.2 [0xCF, 0xFA, 0xED, 0xFE, 1]
    [0xCF, 0xFA, 0xED, 0xFE, 2, 3] (by decide) (by decide) (by decide)

/-! ## Architecture detection -/

/-- C2: on every buffer of at least five bytes, passed with its length, `memdl_get_arch`
returns the value of the reference definition (the table lookup of the byte at index 4
behind an ELF magic, `MEMDL_ARCH_UNKNOWN` for a Mach-O or 'MZ' magic and for a buffer
that fails validation); it returns `MEMDL_ARCH_UNKNOWN` on a NULL buffer and on every
buffer under 4 bytes. -/
theorem memdl_get_arch_eq_reference (host : Endian) (err : String) :
    (∀ data : List Byte, 5 ≤ data.length →
      (memdl_get_arch host (some data) data.length err).map Prod.fst
        = some (get_arch_reference data)) ∧
    (∀ n : Nat, (memdl_get_arch host none n err).map Prod.fst = some MEMDL_ARCH_UNKNOWN) ∧
    (∀ data : List Byte, data.length < 4 →
      (memdl_get_arch host (some data) data.length err).map Prod.fst
        = some MEMDL_ARCH_UNKNOWN) := by
  refine ⟨fun data h5 => ?_, fun n => ?_, fun data hlt => ?_⟩
  · obtain ⟨a, b, c, d, e, rest, rfl⟩ :
        ∃ a b c d e rest, data = a :: b :: c :: d :: e :: rest := by
      rcases data with _ | ⟨a, _ | ⟨b, _ | ⟨c, _ | ⟨d, _ | ⟨e, rest⟩⟩⟩⟩⟩ <;> simp at h5
      exact ⟨a, b, c, d, e, rest, rfl⟩
    have h4 : 4 ≤ (a :: b :: c :: d :: e :: rest).length := by simp
    unfold memdl_get_arch
    rw [validate_cons4 host a b c d (e :: rest) _ err h4]
    by_cases helf : a = 0x7F ∧ b = 0x45 ∧ c = 0x4C ∧ d = 0x46
    · simp [helf, elf_magic_cons4, get_arch_reference, arch_table_reference]
    · simp only [get_arch_reference, helf, if_false, false_or, elf_magic_cons4]
      split_ifs with hc <;> simp [helf, MEMDL_ARCH_UNKNOWN]
  · simp [memdl_get_arch, memdl_validate, MEMDL_ARCH_UNKNOWN]
  · simp [memdl_get_arch, validate_short host data _ err hlt, MEMDL_ARCH_UNKNOWN]

/-- Witness of C2 at an ELF buffer for ARM64 (machine byte 183) and at a 'MZ' buffer. -/
theorem memdl_get_arch_eq_reference_witness :
    (memdl_get_arch Endian.little (some [0x7F, 0x45, 0x4C, 0x46, 183]) 5 "").map Prod.fst
        = some MEMDL_ARCH_ARM64 ∧
    (memdl_get_arch Endian.little (some [0x4D, 0x5A, 0x90, 0x00, 0x03]) 5 "").map Prod.fst
        = some MEMDL_ARCH_UNKNOWN :=
  ⟨(memdl_get_arch_eq_reference Endian.little "").1 [0x7F, 0x45, 0x4C, 0x46, 183] (by decide),
   (memdl_get_arch_eq_reference Endian.little "").1 [0x4D, 0x5A, 0x90, 0x00, 0x03] (by decide)⟩

/-! ## The two reasons of a validation failure -/

/-- C3: on every buffer under 4 bytes, whatever its content, `memdl_validate` returns -1
and leaves the error slot reading "Invalid data or size" (so does a NULL buffer); on
every buffer of at least 4 bytes with no recognized magic it returns -1 and leaves the
slot reading "Not a valid executable format", a different text; and when the slot did
not read "Invalid data or size" before the call, it reads so afterwards exactly when
the buffer is NULL or shorter than 4. -/
theorem memdl_validate_reasons (host : Endian) (err : String) :
    (∀ n : Nat, memdl_validate host none n err = some (-1, "Invalid data or size")) ∧
    (∀ data : List Byte, data.length < 4 →
      memdl_validate host (some data) data.length err = some (-1, "Invalid data or size")) ∧
    (∀ data : List Byte, 4 ≤ data.length →
      data.take 4 ≠ [0x7F, 0x45, 0x4C, 0x46] →
      (¬ ∃ m, load_u32 host data = some m ∧
          (m = 0xFEEDFACE ∨ m = 0xFEEDFACF ∨ m = 0xCEFAEDFE ∨ m = 0xCFFAEDFE)) →
      data.take 2 ≠ [0x4D, 0x5A] →
      memdl_validate host (some data) data.length err
        = some (-1, "Not a valid executable format")) ∧
    memdl_error "Invalid data or size" = "Invalid data or size" ∧
    memdl_error "Not a valid executable format" = "Not a valid executable format" ∧
    ("Invalid data or size" : String) ≠ "Not a valid executable format" ∧
    (err ≠ "Invalid data or size" →
      (∀ n : Nat, (memdl_validate host none n err).map Prod.snd
          = some "Invalid data or size") ∧
      (∀ data : List Byte,
        (memdl_validate host (some data) data.length err).map Prod.snd
            = some "Invalid data or size" ↔ data.length < 4)) := by
  have hsz : memdl_set_error "Invalid data or size" err = "Invalid data or size" := rfl
  have hfm : memdl_set_error "Not a valid executable format" err
      = "Not a valid executable format" := rfl
  have short : ∀ data : List Byte, data.length < 4 →
      memdl_validate host (some data) data.length err
        = some (-1, "Invalid data or size") := fun data h => by
    rw [validate_short host data _ err h, hsz]
  refine ⟨fun n => by simp [memdl_validate, hsz], short, ?_, by decide, by decide,
    by decide, fun herr => ⟨fun n => by simp [memdl_validate, hsz], fun data => ?_⟩⟩
  · intro data h4 h1 h2 h3
    obtain ⟨a, b, c, d, rest, rfl⟩ : ∃ a b c d rest, data = a :: b :: c :: d :: rest := by
      rcases data with _ | ⟨a, _ | ⟨b, _ | ⟨c, _ | ⟨d, rest⟩⟩⟩⟩ <;> simp at h4
      exact ⟨a, b, c, d, rest, rfl⟩
    have e1 : ¬ (a = 0x7F ∧ b = 0x45 ∧ c = 0x4C ∧ d = 0x46) := by simpa using h1
    have e3 : ¬ (a = 0x4D ∧ b = 0x5A) := by simpa using h3
    rw [validate_cons4 host a b c d rest _ err h4, if_neg (by rintro (h | h | h); exacts [e1 h, h2 h, e3 h]), hfm]
  · constructor
    · intro h
      by_contra hlen
      have h4 : 4 ≤ data.length := by omega
      obtain ⟨a, b, c, d, rest, rfl⟩ : ∃ a b c d rest, data = a :: b :: c :: d :: rest := by
        rcases data with _ | ⟨a, _ | ⟨b, _ | ⟨c, _ | ⟨d, rest⟩⟩⟩⟩ <;> simp at h4
        exact ⟨a, b, c, d, rest, rfl⟩
      rw [validate_cons4 host a b c d rest _ err h4] at h
      split_ifs at h
      · simp at h; exact herr h
      · rw [hfm] at h
        simp at h
    · intro hlen
      rw [short data hlen]
      rfl

/-- Witness of C3: a 3-byte buffer that starts with 'M' 'Z', and a 4-byte buffer with no
recognized magic. -/
theorem memdl_validate_reasons_witness :
    memdl_validate Endian.little (some [0x4D, 0x5A, 0x90]) 3 ""
        = some (-1, "Invalid data or size") ∧
    memdl_validate Endian.little (some [0x7F, 0x45, 0x4C, 0x00]) 4 ""
        = some (-1, "Not a valid executable format") :=
  ⟨(memdl_validate_reasons Endian.little "").2.1 [0x4D, 0x5A, 0x90] (by decide),
   (memdl_validate_reasons Endian.little "").2.2.1 [0x7F, 0x45, 0x4C, 0x00] (by decide)
     (by decide) (by simp [load_u32]; decide) (by decide)⟩

/-! ## Opening a buffer that fails validation -/

/-- C4: when `memdl_validate` fails on the buffer (returns -1), `memdl_open` returns
NULL on every backend (Linux, macOS/iOS, Android, Windows) for every flags value, and
the world after the call is the world before it with the error slot written by the
validation: no native call is added to the trace, no file and no descriptor is
created. -/
theorem memdl_open_invalid_no_native_call (host : Endian) (k : Dlfcn) (os : UnixOS)
    (wos : WinOS) (set_error : String → String → String) (so_data : Option (List Byte))
    (so_size : Nat) (flags : Int) (w : World) (e : String)
    (hfail : memdl_validate host so_data so_size w.err = some (-1, e)) :
    Linux.memdl_open host k os so_data so_size flags w = some (NULL, { w with err := e }) ∧
    MacOS.memdl_open host k os so_data so_size flags w = some (NULL, { w with err := e }) ∧
    Android.memdl_open set_error host k os so_data so_size flags w
      = some (NULL, { w with err := e }) ∧
    Windows.memdl_open host wos so_data so_size flags w = some (NULL, { w with err := e }) ∧
    ({ w with err := e } : World).trace = w.trace := by
  simp [Linux.memdl_open, MacOS.memdl_open, Android.memdl_open, Windows.memdl_open, hfail]

/-- Witness of C4: a 4-byte buffer of zeros, opened at process start with flags
`MEMDL_NOW | MEMDL_LOCAL`; the trace stays empty. -/
theorem memdl_open_invalid_no_native_call_witness :
    Linux.memdl_open Endian.little glibc_dlfcn linux_memfd_denied (some [0, 0, 0, 0]) 4 5
        World.start
      = some (NULL, { World.start with err := "Not a valid executable format" }) ∧
    ({ World.start with err := "Not a valid executable format" } : World).trace = [] :=
  have h := memdl_open_invalid_no_native_call Endian.little glibc_dlfcn linux_memfd_denied
    windows_create_fails (fun m _ => m) (some [0, 0, 0, 0]) 4 5 World.start
    "Not a valid executable format" (by decide)
  ⟨h.1, rfl⟩

/-! ## The temporary-file fallback on Linux -/

theorem template_linux_rejected : template_ok "/tmp/memdl_tmp" = false := by decide

theorem posix_mkstemp_linux_memfd_denied : posix_mkstemp linux_memfd_denied := by
  intro tr t h
  simp [linux_memfd_denied, h]

/-- C5 (the code at the failing input): on Linux, for a buffer that passes
`memdl_validate`, when `memfd_create` is denied and `mkstemp` follows POSIX, the
template "/tmp/memdl_tmp" that the code passes is rejected, since it does not end in
"XXXXXX": `memdl_open` returns NULL with "All loading methods failed" in the error
slot, after exactly two native calls (`memfd_create`, `mkstemp`); no file is created,
nothing is written and `dlopen` is never called. -/
theorem linux_fallback_all_methods_fail (host : Endian) (k : Dlfcn) (os : UnixOS)
    (so_data : Option (List Byte)) (so_size : Nat) (flags : Int) (w : World)
    (hvalid : memdl_validate host so_data so_size w.err = some (0, w.err))
    (hmemfd : os.memfd_create w.trace "memdl_lib" MFD_CLOEXEC < 0)
    (hposix : posix_mkstemp os) :
    Linux.memdl_open host k os so_data so_size flags w
      = some (NULL,
          { w with
            err := "All loading methods failed"
            trace := w.trace ++
              [Call.memfd_create "memdl_lib" MFD_CLOEXEC, Call.mkstemp "/tmp/memdl_tmp"] }) := by
  have h1 : ¬ 0 ≤ os.memfd_create w.trace "memdl_lib" MFD_CLOEXEC := by omega
  have h2 := hposix (w.trace ++ [Call.memfd_create "memdl_lib" MFD_CLOEXEC]) "/tmp/memdl_tmp"
    template_linux_rejected
  have h3 : memdl_set_error "All loading methods failed" w.err
      = "All loading methods failed" := rfl
  simp [Linux.memdl_open, Linux.memfd_strategy, Linux.tmpfile_strategy, hvalid,
    sys_memfd_create, sys_mkstemp, World.log, World.set_error, h1, h2, h3]

/-- Witness of C5: an ELF buffer for x86-64 opened with `MEMDL_NOW | MEMDL_LOCAL` at
process start, on a Linux where `memfd_create` is denied and the native loader would
load every file. -/
theorem linux_fallback_all_methods_fail_witness :
    Linux.memdl_open Endian.little glibc_dlfcn linux_memfd_denied
        (some [0x7F, 0x45, 0x4C, 0x46, 2]) 5 5 World.start
      = some (NULL,
          { World.start with
            err := "All loading methods failed"
            trace := World.start.trace ++
              [Call.memfd_create "memdl_lib" MFD_CLOEXEC, Call.mkstemp "/tmp/memdl_tmp"] }) :=
  linux_fallback_all_methods_fail Endian.little glibc_dlfcn linux_memfd_denied
    (some [0x7F, 0x45, 0x4C, 0x46, 2]) 5 5 World.start (by decide) (by decide)
    posix_mkstemp_linux_memfd_denied

/-! ## Cleanup of temporary files and descriptors -/

/-- C6 (the code at the failing input): on Windows, for a buffer that passes
`memdl_validate`, when `GetTempPathA` and `GetTempFileNameA` succeed (the latter
creates the empty file `file`) and `CreateFileA` then returns `INVALID_HANDLE_VALUE`,
`memdl_open` returns NULL after these three native calls: `DeleteFileA` is not called
and the file `file` still exists when the call returns. -/
theorem windows_open_leaves_temp_file (host : Endian) (os : WinOS)
    (so_data : Option (List Byte)) (so_size : Nat) (flags : Int) (w : World)
    (ret u : Nat) (dir file : String)
    (hvalid : memdl_validate host so_data so_size w.err = some (0, w.err))
    (hpath : os.GetTempPathA w.trace MAX_PATH = (ret, dir))
    (hret : ret ≠ 0 ∧ ret ≤ MAX_PATH)
    (hname : os.GetTempFileNameA (w.trace ++ [Call.GetTempPathA MAX_PATH]) dir "memdl" 0
      = (u, file))
    (hu : u ≠ 0)
    (hcreate : os.CreateFileA
      (w.trace ++ [Call.GetTempPathA MAX_PATH, Call.GetTempFileNameA dir "memdl" 0]) file
      = INVALID_HANDLE_VALUE) :
    Windows.memdl_open host os so_data so_size flags w
      = some (NULL,
          { err := "Failed to create temp file"
            files := file :: w.files
            fds := w.fds
            trace := w.trace ++ [Call.GetTempPathA MAX_PATH,
              Call.GetTempFileNameA dir "memdl" 0, Call.CreateFileA file] }) := by
  have h3 : ∀ e, memdl_set_error "Failed to create temp file" e
      = "Failed to create temp file" := fun _ => rfl
  have hret2 : ¬ MAX_PATH < ret := by omega
  simp [Windows.memdl_open, hvalid, sys_GetTempPathA, sys_GetTempFileNameA, sys_CreateFileA,
    World.log, World.set_error, hpath, hret.1, hret2, hname, hu, hcreate, h3]

/-- Witness of C6: a 'MZ' buffer opened at process start on a Windows where `CreateFileA`
fails; the temporary file "C:/Temp/memdl1.tmp" is left behind. -/
theorem windows_open_leaves_temp_file_witness :
    Windows.memdl_open Endian.little windows_create_fails (some [0x4D, 0x5A, 0x90, 0x00]) 4 5
        World.start
      = some (NULL,
          { err := "Failed to create temp file"
            files := "C:/Temp/memdl1.tmp" :: World.start.files
            fds := World.start.fds
            trace := World.start.trace ++ [Call.GetTempPathA MAX_PATH,
              Call.GetTempFileNameA "C:/Temp/" "memdl" 0,
              Call.CreateFileA "C:/Temp/memdl1.tmp"] }) :=
  windows_open_leaves_temp_file Endian.little windows_create_fails
    (some [0x4D, 0x5A, 0x90, 0x00]) 4 5 World.start 8 1 "C:/Temp/" "C:/Temp/memdl1.tmp"
    (by decide) rfl (by decide) rfl (by decide) rfl

theorem linux_memfd_strategy_resources (os : UnixOS) (so_data : Option (List Byte))
    (so_size : Nat) (dl_flags : Int) (w : World) :
    (Linux.memfd_strategy os so_data so_size dl_flags w).2.files = w.files ∧
    (Linux.memfd_strategy os so_data so_size dl_flags w).2.fds = w.fds ∧
    (Linux.memfd_strategy os so_data so_size dl_flags w).2.err = w.err := by
  simp only [Linux.memfd_strategy, sys_memfd_create, sys_write, sys_lseek, sys_dlopen,
    sys_close, World.log]
  split_ifs <;> simp

theorem linux_tmpfile_strategy_resources (os : UnixOS) (so_data : Option (List Byte))
    (so_size : Nat) (dl_flags : Int) (w : World) :
    (Linux.tmpfile_strategy os so_data so_size dl_flags w).2.files = w.files ∧
    (Linux.tmpfile_strategy os so_data so_size dl_flags w).2.fds = w.fds := by
  simp only [Linux.tmpfile_strategy, sys_mkstemp, sys_write, sys_dlopen, sys_unlink,
    sys_close, sys_dlerror, World.log, World.set_error]
  split_ifs <;> simp

/-- On Linux every exit path of `memdl_open` leaves the temporary files and the open
descriptors as they were before the call. -/
theorem linux_open_restores_resources (host : Endian) (k : Dlfcn) (os : UnixOS)
    (so_data : Option (List Byte)) (so_size : Nat) (flags : Int) (w : World)
    (r : Ptr × World)
    (h : Linux.memdl_open host k os so_data so_size flags w = some r) :
    r.2.files = w.files ∧ r.2.fds = w.fds := by
  unfold Linux.memdl_open at h
  cases hv : memdl_validate host so_data so_size w.err with
  | none => simp [hv] at h
  | some v =>
    simp only [hv, Option.map_some', Option.some.injEq] at h
    subst h
    by_cases h0 : v.1 ≠ 0
    · simp [h0]
    · simp only [h0, if_false]
      split
      · simp [linux_memfd_strategy_resources]
      · simp [linux_tmpfile_strategy_resources, linux_memfd_strategy_resources]

theorem macos_tmpfile_strategy_resources (os : UnixOS) (so_data : Option (List Byte))
    (so_size : Nat) (dl_flags : Int) (w : World) :
    (MacOS.tmpfile_strategy os so_data so_size dl_flags w).2.files = w.files ∧
    (MacOS.tmpfile_strategy os so_data so_size dl_flags w).2.fds = w.fds := by
  simp only [MacOS.tmpfile_strategy, sys_mkstemp, sys_write, sys_dlopen, sys_unlink,
    sys_close, sys_dlerror, World.log, World.set_error]
  split_ifs <;> simp

/-- On macOS and iOS every exit path of `memdl_open` leaves the temporary files and
the open descriptors as they were before the call. -/
theorem macos_open_restores_resources (host : Endian) (k : Dlfcn) (os : UnixOS)
    (so_data : Option (List Byte)) (so_size : Nat) (flags : Int) (w : World)
    (r : Ptr × World)
    (h : MacOS.memdl_open host k os so_data so_size flags w = some r) :
    r.2.files = w.files ∧ r.2.fds = w.fds := by
  unfold MacOS.memdl_open at h
  cases hv : memdl_validate host so_data so_size w.err with
  | none => simp [hv] at h
  | some v =>
    simp only [hv, Option.map_some', Option.some.injEq] at h
    subst h
    by_cases h0 : v.1 ≠ 0
    · simp [h0]
    · simp [h0, macos_tmpfile_strategy_resources]

theorem android_memfd_strategy_resources (os : UnixOS) (so_data : Option (List Byte))
    (so_size : Nat) (dl_flags : Int) (w : World) :
    (Android.memfd_strategy os so_data so_size dl_flags w).2.files = w.files ∧
    (Android.memfd_strategy os so_data so_size dl_flags w).2.fds = w.fds := by
  simp only [Android.memfd_strategy, Android.is_android_7_plus, sys_memfd_create, sys_write,
    sys_lseek, sys_android_dlopen_ext, sys_close, World.log]
  split_ifs <;> simp

theorem android_tmpfile_strategy_resources (set_error : String → String → String)
    (os : UnixOS) (so_data : Option (List Byte)) (so_size : Nat) (dl_flags : Int)
    (w : World) :
    (Android.tmpfile_strategy set_error os so_data so_size dl_flags w).2.files = w.files ∧
    (Android.tmpfile_strategy set_error os so_data so_size dl_flags w).2.fds = w.fds := by
  simp only [Android.tmpfile_strategy, sys_mkstemp, sys_write, sys_dlopen, sys_unlink,
    sys_close, sys_dlerror, World.log]
  split_ifs <;> simp

/-- On Android every exit path of `memdl_open` leaves the temporary files and the open
descriptors as they were before the call. -/
theorem android_open_restores_resources (set_error : String → String → String)
    (host : Endian) (k : Dlfcn) (os : UnixOS)
    (so_data : Option (List Byte)) (so_size : Nat) (flags : Int) (w : World)
    (r : Ptr × World)
    (h : Android.memdl_open set_error host k os so_data so_size flags w = some r) :
    r.2.files = w.files ∧ r.2.fds = w.fds := by
  unfold Android.memdl_open at h
  cases hv : memdl_validate host so_data so_size w.err with
  | none => simp [hv] at h
  | some v =>
    simp only [hv, Option.map_some', Option.some.injEq] at h
    subst h
    by_cases h0 : v.1 ≠ 0
    · simp [h0]
    · simp only [h0, if_false]
      split
      · simp [android_memfd_strategy_resources]
      · simp [android_tmpfile_strategy_resources, android_memfd_strategy_resources]

theorem windows_write_and_load_resources (os : WinOS) (so_data : Option (List Byte))
    (so_size : Nat) (temp_file : String) (hFile : Int) (w : World) :
    (Windows.write_and_load os so_data so_size temp_file hFile w).2.files
      = w.files.erase temp_file ∧
    (Windows.write_and_load os so_data so_size temp_file hFile w).2.fds
      = w.fds.erase hFile := by
  simp only [Windows.write_and_load, sys_WriteFile, sys_CloseHandle, sys_DeleteFileA,
    sys_LoadLibraryA, sys_GetLastError, World.log, World.set_error]
  split_ifs <;> simp

/-- On Windows `memdl_open` closes every handle it opened, and leaves the temporary
files as they were except on the exit taken when `CreateFileA` fails, where the file
created by `GetTempFileNameA` remains. -/
theorem windows_open_resources (host : Endian) (os : WinOS)
    (so_data : Option (List Byte)) (so_size : Nat) (flags : Int) (w : World)
    (r : Ptr × World)
    (h : Windows.memdl_open host os so_data so_size flags w = some r) :
    r.2.fds = w.fds ∧
    (r.2.files = w.files ∨
      (r.1 = NULL ∧ r.2.err = "Failed to create temp file" ∧
        ∃ file, r.2.files = file :: w.files)) := by
  unfold Windows.memdl_open at h
  cases hv : memdl_validate host so_data so_size w.err with
  | none => simp [hv] at h
  | some v =>
    simp only [hv, Option.map_some', Option.some.injEq] at h
    subst h
    by_cases h0 : v.1 ≠ 0
    · simp [h0]
    · simp only [h0, if_false]
      generalize hp : sys_GetTempPathA os MAX_PATH { w with err := v.2 } = p
      have hpw : p.2.files = w.files ∧ p.2.fds = w.fds := by
        subst hp; simp [sys_GetTempPathA, World.log]
      by_cases h1 : p.1.1 = 0 ∨ MAX_PATH < p.1.1
      · simp [h1, World.set_error, hpw]
      · simp only [h1, if_false]
        generalize hn : sys_GetTempFileNameA os p.1.2 "memdl" 0 p.2 = n
        by_cases h2 : n.1.1 = 0
        · have hnw : n.2.files = p.2.files ∧ n.2.fds = p.2.fds := by
            subst hn
            simp only [sys_GetTempFileNameA] at h2
            simp [sys_GetTempFileNameA, World.log, h2]
          simp [h2, World.set_error, hpw, hnw]
        · have hnw : n.2.files = n.1.2 :: p.2.files ∧ n.2.fds = p.2.fds := by
            subst hn
            simp only [sys_GetTempFileNameA] at h2
            simp [sys_GetTempFileNameA, World.log, h2]
          simp only [h2, if_false]
          generalize hc : sys_CreateFileA os n.1.2 n.2 = c
          by_cases h3 : c.1 = INVALID_HANDLE_VALUE
          · have hcw : c.2.files = n.2.files ∧ c.2.fds = n.2.fds := by
              subst hc
              simp only [sys_CreateFileA] at h3
              simp [sys_CreateFileA, World.log, h3]
            rw [if_pos h3]
            refine ⟨by simp [World.set_error, hcw, hnw, hpw], Or.inr ⟨rfl, rfl, n.1.2, by simp [World.set_error, hcw, hnw, hpw]⟩⟩
          · have hcw : c.2.files = n.2.files ∧ c.2.fds = c.1 :: n.2.fds := by
              subst hc
              simp only [sys_CreateFileA] at h3
              simp [sys_CreateFileA, World.log, h3, hnw]
            simp [h3, windows_write_and_load_resources, hcw, hnw, hpw]

/-! ## Flag translation -/

theorem nat_masked_ne_zero (i r : Nat) (c : Nat → Bool)
    (h : ∀ j, r.testBit j = ((2 ^ i).testBit j && c j)) : r ≠ 0 ↔ c i = true := by
  constructor
  · intro hr
    obtain ⟨j, hj⟩ := Nat.ne_zero_implies_bit_true hr
    rw [h j, Bool.and_eq_true, Nat.testBit_two_pow, decide_eq_true_eq] at hj
    obtain ⟨rfl, hc⟩ := hj
    exact hc
  · intro hc hr
    have := h i
    rw [hr, Nat.zero_testBit, Nat.testBit_two_pow_self, hc] at this
    simp at this

theorem land_two_pow_ne_zero (f : Int) (i : Nat) :
    Int.land f ((2 ^ i : Nat) : Int) ≠ 0 ↔ f.testBit i = true := by
  cases f with
  | ofNat n =>
    have e : Int.land (Int.ofNat n) ((2 ^ i : Nat) : Int) = ((n &&& 2 ^ i : Nat) : Int) := rfl
    rw [e, Int.natCast_ne_zero]
    exact nat_masked_ne_zero i _ (fun j => n.testBit j)
      (fun j => by rw [Nat.testBit_land, Bool.and_comm])
  | negSucc n =>
    have e : Int.land (Int.negSucc n) ((2 ^ i : Nat) : Int)
        = ((Nat.ldiff (2 ^ i) n : Nat) : Int) := rfl
    rw [e, Int.natCast_ne_zero]
    exact nat_masked_ne_zero i _ (fun j => !n.testBit j) (fun j => Nat.testBit_ldiff _ _ _)

theorem land_one_ne_zero (f : Int) : Int.land f 1 ≠ 0 ↔ f.testBit 0 = true :=
  land_two_pow_ne_zero f 0

theorem land_four_ne_zero (f : Int) : Int.land f 4 ≠ 0 ↔ f.testBit 2 = true :=
  land_two_pow_ne_zero f 2

theorem dl_flags_eq_reference (k : Dlfcn) (flags : Int) :
    Int.lor (if Int.land flags MEMDL_NOW ≠ 0 then k.RTLD_NOW else k.RTLD_LAZY)
        (if Int.land flags MEMDL_LOCAL ≠ 0 then k.RTLD_LOCAL else k.RTLD_GLOBAL)
      = dl_flags_reference k flags := by
  have h1 := land_one_ne_zero flags
  have h4 := land_four_ne_zero flags
  unfold dl_flags_reference MEMDL_NOW MEMDL_LOCAL
  by_cases a : flags.testBit 0 = true <;> by_cases b : flags.testBit 2 = true <;>
    simp only [h1, h4, a, b, if_true, if_false]

theorem linux_memfd_strategy_flags (os : UnixOS) (so_data : Option (List Byte))
    (so_size : Nat) (dl_flags : Int) (w : World) :
    ∀ c ∈ (Linux.memfd_strategy os so_data so_size dl_flags w).2.trace,
      c ∈ w.trace ∨ c.loader_flags = none ∨ c.loader_flags = some dl_flags := by
  simp only [Linux.memfd_strategy, sys_memfd_create, sys_write, sys_lseek, sys_dlopen,
    sys_close, World.log]
  split_ifs <;> simp <;> aesop

theorem linux_tmpfile_strategy_flags (os : UnixOS) (so_data : Option (List Byte))
    (so_size : Nat) (dl_flags : Int) (w : World) :
    ∀ c ∈ (Linux.tmpfile_strategy os so_data so_size dl_flags w).2.trace,
      c ∈ w.trace ∨ c.loader_flags = none ∨ c.loader_flags = some dl_flags := by
  simp only [Linux.tmpfile_strategy, sys_mkstemp, sys_write, sys_dlopen, sys_unlink,
    sys_close, sys_dlerror, World.log, World.set_error]
  split_ifs <;> simp <;> aesop

theorem macos_tmpfile_strategy_flags (os : UnixOS) (so_data : Option (List Byte))
    (so_size : Nat) (dl_flags : Int) (w : World) :
    ∀ c ∈ (MacOS.tmpfile_strategy os so_data so_size dl_flags w).2.trace,
      c ∈ w.trace ∨ c.loader_flags = none ∨ c.loader_flags = some dl_flags := by
  simp only [MacOS.tmpfile_strategy, sys_mkstemp, sys_write, sys_dlopen, sys_unlink,
    sys_close, sys_dlerror, World.log, World.set_error]
  split_ifs <;> simp <;> aesop

theorem android_memfd_strategy_flags (os : UnixOS) (so_data : Option (List Byte))
    (so_size : Nat) (dl_flags : Int) (w : World) :
    ∀ c ∈ (Android.memfd_strategy os so_data so_size dl_flags w).2.trace,
      c ∈ w.trace ∨ c.loader_flags = none ∨ c.loader_flags = some dl_flags := by
  simp only [Android.memfd_strategy, Android.is_android_7_plus, sys_memfd_create, sys_write,
    sys_lseek, sys_android_dlopen_ext, sys_close, World.log]
  split_ifs <;> simp <;> aesop

theorem android_tmpfile_strategy_flags (set_error : String → String → String)
    (os : UnixOS) (so_data : Option (List Byte)) (so_size : Nat) (dl_flags : Int)
    (w : World) :
    ∀ c ∈ (Android.tmpfile_strategy set_error os so_data so_size dl_flags w).2.trace,
      c ∈ w.trace ∨ c.loader_flags = none ∨ c.loader_flags = some dl_flags := by
  simp only [Android.tmpfile_strategy, sys_mkstemp, sys_write, sys_dlopen, sys_unlink,
    sys_close, sys_dlerror, World.log]
  split_ifs <;> simp <;> aesop

theorem linux_open_flags (host : Endian) (k : Dlfcn) (os : UnixOS)
    (so_data : Option (List Byte)) (so_size : Nat) (flags : Int) (w : World)
    (r : Ptr × World) (h : Linux.memdl_open host k os so_data so_size flags w = some r) :
    ∀ c ∈ r.2.trace, c ∈ w.trace ∨ c.loader_flags = none ∨
      c.loader_flags = some (dl_flags_reference k flags) := by
  unfold Linux.memdl_open at h
  cases hv : memdl_validate host so_data so_size w.err with
  | none => simp [hv] at h
  | some v =>
    simp only [hv, Option.map_some', Option.some.injEq, dl_flags_eq_reference] at h
    subst h
    by_cases h0 : v.1 ≠ 0
    · rw [if_pos h0]
      exact fun c hc => Or.inl hc
    · simp only [h0, if_false]
      have h1 := linux_memfd_strategy_flags os so_data so_size (dl_flags_reference k flags)
        { w with err := v.2 }
      split
      · exact h1
      · intro c hc
        rcases linux_tmpfile_strategy_flags os so_data so_size _ _ c hc with h2 | h2
        · exact h1 c h2
        · exact Or.inr h2

theorem macos_open_flags (host : Endian) (k : Dlfcn) (os : UnixOS)
    (so_data : Option (List Byte)) (so_size : Nat) (flags : Int) (w : World)
    (r : Ptr × World) (h : MacOS.memdl_open host k os so_data so_size flags w = some r) :
    ∀ c ∈ r.2.trace, c ∈ w.trace ∨ c.loader_flags = none ∨
      c.loader_flags = some (dl_flags_reference k flags) := by
  unfold MacOS.memdl_open at h
  cases hv : memdl_validate host so_data so_size w.err with
  | none => simp [hv] at h
  | some v =>
    simp only [hv, Option.map_some', Option.some.injEq, dl_flags_eq_reference] at h
    subst h
    by_cases h0 : v.1 ≠ 0
    · rw [if_pos h0]
      exact fun c hc => Or.inl hc
    · simp only [h0, if_false]
      exact macos_tmpfile_strategy_flags os so_data so_size (dl_flags_reference k flags)
        { w with err := v.2 }

theorem android_open_flags (set_error : String → String → String) (host : Endian)
    (k : Dlfcn) (os : UnixOS)
    (so_data : Option (List Byte)) (so_size : Nat) (flags : Int) (w : World)
    (r : Ptr × World)
    (h : Android.memdl_open set_error host k os so_data so_size flags w = some r) :
    ∀ c ∈ r.2.trace, c ∈ w.trace ∨ c.loader_flags = none ∨
      c.loader_flags = some (dl_flags_reference k flags) := by
  unfold Android.memdl_open at h
  cases hv : memdl_validate host so_data so_size w.err with
  | none => simp [hv] at h
  | some v =>
    simp only [hv, Option.map_some', Option.some.injEq, dl_flags_eq_reference] at h
    subst h
    by_cases h0 : v.1 ≠ 0
    · rw [if_pos h0]
      exact fun c hc => Or.inl hc
    · simp only [h0, if_false]
      have h1 := android_memfd_strategy_flags os so_data so_size (dl_flags_reference k flags)
        { w with err := v.2 }
      split
      · exact h1
      · intro c hc
        rcases android_tmpfile_strategy_flags set_error os so_data so_size _ _ c hc with h2 | h2
        · exact h1 c h2
        · exact Or.inr h2

theorem dl_flags_reference_land (k : Dlfcn) (flags : Int) :
    dl_flags_reference k (Int.land flags 5) = dl_flags_reference k flags := by
  have h0 : Int.testBit 5 0 = true := by decide
  have h2 : Int.testBit 5 2 = true := by decide
  simp [dl_flags_reference, Int.testBit_land, h0, h2]

theorem dl_flags_reference_lor (k : Dlfcn) (flags m : Int) (h0 : m.testBit 0 = false)
    (h2 : m.testBit 2 = false) :
    dl_flags_reference k (Int.lor flags m) = dl_flags_reference k flags := by
  simp [dl_flags_reference, Int.testBit_lor, h0, h2]

/-- C7: on the Unix-like backends (Linux, macOS/iOS, Android) `memdl_open_file` calls
`dlopen` with the native flags (`RTLD_NOW` if bit 0x1 of `flags` is set, otherwise
`RTLD_LAZY`) OR-ed with (`RTLD_LOCAL` if bit 0x4 is set, otherwise `RTLD_GLOBAL`), and
every loader call that `memdl_open` adds to the trace carries the same native flags.
The translation depends only on bits 0x1 and 0x4: it is the same for `flags` and for
`flags & 0x5`, setting `MEMDL_LAZY` (0x2) or `MEMDL_GLOBAL` (0x8) does not change it,
and two flag values that agree on `& 0x5` translate alike. -/
theorem dl_flags_translation (host : Endian) (k : Dlfcn) (os : UnixOS)
    (set_error : String → String → String) (so_data : Option (List Byte)) (so_size : Nat)
    (filename : String) (flags : Int) (w : World) :
    (Linux.memdl_open_file k os filename flags w
        = sys_dlopen os filename (dl_flags_reference k flags) w ∧
      MacOS.memdl_open_file k os filename flags w
        = sys_dlopen os filename (dl_flags_reference k flags) w ∧
      Android.memdl_open_file k os filename flags w
        = sys_dlopen os filename (dl_flags_reference k flags) w) ∧
    (sys_dlopen os filename (dl_flags_reference k flags) w).2.trace
        = w.trace ++ [Call.dlopen filename (dl_flags_reference k flags)] ∧
    (∀ r, Linux.memdl_open host k os so_data so_size flags w = some r →
      ∀ c ∈ r.2.trace, c ∈ w.trace ∨ c.loader_flags = none ∨
        c.loader_flags = some (dl_flags_reference k flags)) ∧
    (∀ r, MacOS.memdl_open host k os so_data so_size flags w = some r →
      ∀ c ∈ r.2.trace, c ∈ w.trace ∨ c.loader_flags = none ∨
        c.loader_flags = some (dl_flags_reference k flags)) ∧
    (∀ r, Android.memdl_open set_error host k os so_data so_size flags w = some r →
      ∀ c ∈ r.2.trace, c ∈ w.trace ∨ c.loader_flags = none ∨
        c.loader_flags = some (dl_flags_reference k flags)) ∧
    dl_flags_reference k flags = dl_flags_reference k (Int.land flags 0x5) ∧
    dl_flags_reference k (Int.lor flags MEMDL_LAZY) = dl_flags_reference k flags ∧
    dl_flags_reference k (Int.lor flags MEMDL_GLOBAL) = dl_flags_reference k flags ∧
    (∀ g : Int, Int.land g 0x5 = Int.land flags 0x5 →
      dl_flags_reference k g = dl_flags_reference k flags) := by
  refine ⟨⟨?_, ?_, ?_⟩, rfl, linux_open_flags host k os so_data so_size flags w,
    macos_open_flags host k os so_data so_size flags w,
    android_open_flags set_error host k os so_data so_size flags w,
    (dl_flags_reference_land k flags).symm,
    dl_flags_reference_lor k flags _ (by decide) (by decide),
    dl_flags_reference_lor k flags _ (by decide) (by decide), fun g hg => ?_⟩
  · simp only [Linux.memdl_open_file, dl_flags_eq_reference]
  · simp only [MacOS.memdl_open_file, dl_flags_eq_reference]
  · simp only [Android.memdl_open_file, dl_flags_eq_reference]
  · rw [← dl_flags_reference_land k g, hg, dl_flags_reference_land]

/-- Witness of C7 with the `RTLD_*` values of glibc: `MEMDL_NOW | MEMDL_LOCAL` (0x5)
translates to `RTLD_NOW | RTLD_LOCAL` (2), and so does 0xF, where the `MEMDL_LAZY` and
`MEMDL_GLOBAL` bits are set too; `MEMDL_LAZY | MEMDL_GLOBAL` (0xA) translates to
`RTLD_LAZY | RTLD_GLOBAL` (0x101). -/
theorem dl_flags_translation_witness :
    (Linux.memdl_open_file glibc_dlfcn linux_loader_fails "lib.so" 0x5 World.start).2.trace
        = [Call.dlopen "lib.so" 2] ∧
    (Linux.memdl_open_file glibc_dlfcn linux_loader_fails "lib.so" 0xF World.start).2.trace
        = [Call.dlopen "lib.so" 2] ∧
    (Linux.memdl_open_file glibc_dlfcn linux_loader_fails "lib.so" 0xA World.start).2.trace
        = [Call.dlopen "lib.so" 0x101] ∧
    dl_flags_reference glibc_dlfcn 0xF = dl_flags_reference glibc_dlfcn 0x5 :=
  ⟨by decide, by decide, by decide,
   (dl_flags_translation Endian.little glibc_dlfcn linux_loader_fails (fun m _ => m) none 0
      "lib.so" 0x5 World.start).2.2.2.2.2.2.2.2 0xF (by decide)⟩

/-! ## Diagnostics of a failed open -/

/-- The outcome of `memdl_validate` does not depend on the content of the error slot:
it is undefined, a success that leaves the slot alone, or a failure that stores a text
fixed by the buffer. -/
theorem validate_outcome (host : Endian) (so_data : Option (List Byte)) (so_size : Nat) :
    (∀ e, memdl_validate host so_data so_size e = none) ∨
    (∀ e, memdl_validate host so_data so_size e = some (0, e)) ∨
    (∀ e, memdl_validate host so_data so_size e = some (-1, "Invalid data or size")) ∨
    (∀ e, memdl_validate host so_data so_size e
      = some (-1, "Not a valid executable format")) := by
  have hsz : ∀ e, memdl_set_error "Invalid data or size" e = "Invalid data or size" :=
    fun _ => rfl
  have hfm : ∀ e, memdl_set_error "Not a valid executable format" e
      = "Not a valid executable format" := fun _ => rfl
  unfold memdl_validate
  cases so_data with
  | none => exact Or.inr (Or.inr (Or.inl fun e => by simp [hsz]))
  | some data =>
    by_cases hn : so_size < 4
    · exact Or.inr (Or.inr (Or.inl fun e => by simp [hn, hsz]))
    · simp only [hn, if_false]
      cases elf_magic data with
      | none => exact Or.inl fun e => rfl
      | some elf =>
        cases elf with
        | true => exact Or.inr (Or.inl fun e => by simp)
        | false =>
          cases load_u32 host data with
          | none => exact Or.inl fun e => rfl
          | some magic =>
            by_cases hm : magic = 0xFEEDFACE ∨ magic = 0xFEEDFACF ∨
                magic = 0xCEFAEDFE ∨ magic = 0xCFFAEDFE
            · exact Or.inr (Or.inl fun e => by simp [hm])
            · cases mz_magic data with
              | none => exact Or.inl fun e => by simp [hm]
              | some mz =>
                cases mz with
                | true => exact Or.inr (Or.inl fun e => by simp [hm])
                | false => exact Or.inr (Or.inr (Or.inr fun e => by simp [hm, hfm]))

/-- C9: on the Linux, macOS/iOS and Windows backends, for every symbol name,
`memdl_sym(NULL, name)` returns NULL and `memdl_close(NULL)` returns -1; each leaves the
error slot reading "Invalid handle" and changes nothing else: the trace of native calls
is the one before the call, so `dlsym`, `dlclose`, `GetProcAddress` and `FreeLibrary`
are not invoked. -/
theorem null_handle_rejected (os : UnixOS) (wos : WinOS) (symbol : Option String)
    (w : World) :
    Linux.memdl_sym os NULL symbol w = (NULL, { w with err := "Invalid handle" }) ∧
    Linux.memdl_close os NULL w = (-1, { w with err := "Invalid handle" }) ∧
    MacOS.memdl_sym os NULL symbol w = (NULL, { w with err := "Invalid handle" }) ∧
    MacOS.memdl_close os NULL w = (-1, { w with err := "Invalid handle" }) ∧
    Windows.memdl_sym wos NULL symbol w = (NULL, { w with err := "Invalid handle" }) ∧
    Windows.memdl_close wos NULL w = (-1, { w with err := "Invalid handle" }) ∧
    ({ w with err := "Invalid handle" } : World).trace = w.trace ∧
    memdl_error "Invalid handle" = "Invalid handle" := by
  have h : memdl_set_error "Invalid handle" w.err = "Invalid handle" := rfl
  simp [Linux.memdl_sym, Linux.memdl_close, MacOS.memdl_sym, MacOS.memdl_close,
    Windows.memdl_sym, Windows.memdl_close, World.set_error, h]
  decide

/-- C11 (counterexample): with the non-null handle 4096, on a Unix-like platform whose
`dlclose` fails with the result 1, `memdl_close` on Linux returns 1, not -1; on a
Windows whose `FreeLibrary` returns false, `memdl_close` returns -1 and leaves the
error slot as it was, with no diagnostic recorded. -/
theorem memdl_close_failure_not_uniform :
    Linux.memdl_close unix_dlclose_one 4096 World.start
      = (1, { err := "shared object not open", files := [], fds := [],
              trace := [Call.dlclose 4096, Call.dlerror] }) ∧
    Windows.memdl_close windows_create_fails 4096 World.start
      = (-1, { err := "", files := [], fds := [], trace := [Call.FreeLibrary 4096] }) ∧
    memdl_error "" = "No error" := by
  decide

/-- C11 (amended): for every non-null handle, `memdl_close` calls the native unload
primitive once and returns 0 exactly when that primitive reports success.  On Linux
and macOS/iOS a nonzero `dlclose` result is returned as it is (so the result is -1
exactly when `dlclose` returns -1) and the `dlerror` text is recorded in the error
slot; on success the slot is left alone.  On Windows `FreeLibrary` returning false
gives -1, and the error slot is never written. -/
theorem memdl_close_result (os : UnixOS) (wos : WinOS) (handle : Ptr) (w : World)
    (hh : handle ≠ NULL) :
    Linux.memdl_close os handle w
      = (os.dlclose w.trace handle,
          if os.dlclose w.trace handle ≠ 0 then
            { w with
              err := memdl_set_error (os.dlerror (w.trace ++ [Call.dlclose handle])) w.err
              trace := w.trace ++ [Call.dlclose handle, Call.dlerror] }
          else { w with trace := w.trace ++ [Call.dlclose handle] }) ∧
    MacOS.memdl_close os handle w = Linux.memdl_close os handle w ∧
    Windows.memdl_close wos handle w
      = (if wos.FreeLibrary w.trace handle then 0 else -1,
          { w with trace := w.trace ++ [Call.FreeLibrary handle] }) ∧
    ((Linux.memdl_close os handle w).1 = 0 ↔ os.dlclose w.trace handle = 0) ∧
    ((Linux.memdl_close os handle w).1 = -1 ↔ os.dlclose w.trace handle = -1) ∧
    ((Windows.memdl_close wos handle w).1 = 0 ↔ wos.FreeLibrary w.trace handle = true) ∧
    ((Windows.memdl_close wos handle w).1 = -1 ↔ wos.FreeLibrary w.trace handle = false) := by
  have hl : Linux.memdl_close os handle w
      = (os.dlclose w.trace handle,
          if os.dlclose w.trace handle ≠ 0 then
            { w with
              err := memdl_set_error (os.dlerror (w.trace ++ [Call.dlclose handle])) w.err
              trace := w.trace ++ [Call.dlclose handle, Call.dlerror] }
          else { w with trace := w.trace ++ [Call.dlclose handle] }) := by
    simp only [Linux.memdl_close, hh, if_false, sys_dlclose, sys_dlerror, World.log,
      World.set_error]
    split_ifs <;> simp
  have hw : Windows.memdl_close wos handle w
      = (if wos.FreeLibrary w.trace handle then 0 else -1,
          { w with trace := w.trace ++ [Call.FreeLibrary handle] }) := by
    simp [Windows.memdl_close, hh, sys_FreeLibrary, World.log]
  refine ⟨hl, rfl, hw, ?_, ?_, ?_, ?_⟩
  · rw [hl]
  · rw [hl]
  · rw [hw]
    cases wos.FreeLibrary w.trace handle <;> simp
  · rw [hw]
    cases wos.FreeLibrary w.trace handle <;> simp

/-- Witness of C11: the non-null handle 4096 on a Linux whose `dlclose` returns -1 and on
a Windows whose `FreeLibrary` returns false. -/
theorem memdl_close_result_witness :
    (Linux.memdl_close linux_loader_fails 4096 World.start).1 = -1 ∧
    (Windows.memdl_close windows_create_fails 4096 World.start).1 = -1 :=
  ⟨(memdl_close_result linux_loader_fails windows_create_fails 4096 World.start
      (by decide)).2.2.2.2.1.mpr rfl,
   (memdl_close_result linux_loader_fails windows_create_fails 4096 World.start
      (by decide)).2.2.2.2.2.2.mpr rfl⟩

/-! ## Reading the error slot -/

theorem set_error_data (m old : String) :
    (memdl_set_error m old).data = m.data.take 255 := rfl

theorem take_eq_nil_iff_of_pos (l : List Char) : l.take 255 = [] ↔ l = [] := by
  cases l <;> simp

/-- C12 (counterexample): after `memdl_set_error` with the empty text `memdl_error`
returns "No error", not the empty text; and after `memdl_set_error` with a text of 256
characters it returns a text of 255 characters. -/
theorem memdl_error_after_set_not_exact :
    memdl_error (memdl_set_error "" "Invalid handle") = "No error" ∧
    memdl_error (memdl_set_error "" "Invalid handle") ≠ "" ∧
    (memdl_error (memdl_set_error (String.mk (List.replicate 256 'a')) "")).data.length
      = 255 ∧
    (String.mk (List.replicate 256 'a')).data.length = 256 := by
  have hlen : (String.mk (List.replicate 256 'a')).data.length = 256 :=
    List.length_replicate 256 'a'
  have htake : ((String.mk (List.replicate 256 'a')).data.take 255).length = 255 := by
    rw [List.length_take, hlen]
    rfl
  have h : (memdl_set_error (String.mk (List.replicate 256 'a')) "").data ≠ [] := by
    rw [set_error_data]
    intro hnil
    rw [hnil] at htake
    exact absurd htake (by decide)
  refine ⟨by decide, by decide, ?_, hlen⟩
  rw [memdl_error, if_pos h, set_error_data]
  exact htake

/-- C12 (amended): `memdl_error` is a read of the error slot: at process start it returns
"No error"; after `memdl_set_error(m)` it returns the first 255 characters of `m`, which
is `m` itself when `m` is not empty and has at most 255 characters, and it returns "No
error" when `m` is empty.  It is a function of the slot alone and gives back no new
slot, so two reads with nothing in between return the same text. -/
theorem memdl_error_reads_slot (m old : String) :
    memdl_error World.start.err = "No error" ∧
    memdl_error (memdl_set_error m old)
      = (if m.data = [] then "No error" else String.mk (m.data.take 255)) ∧
    (m.data ≠ [] → m.data.length ≤ 255 → memdl_error (memdl_set_error m old) = m) ∧
    (m.data = [] → memdl_error (memdl_set_error m old) = "No error") ∧
    (∀ slot : String, memdl_error slot = memdl_error slot) := by
  have key : memdl_error (memdl_set_error m old)
      = (if m.data = [] then "No error" else String.mk (m.data.take 255)) := by
    unfold memdl_error
    rw [set_error_data]
    by_cases hm : m.data = []
    · simp [hm]
    · have h1 : m.data.take 255 ≠ [] := fun h => hm ((take_eq_nil_iff_of_pos _).mp h)
      rw [if_pos h1, if_neg hm]
      rfl
  refine ⟨by decide, key, fun hne hlen => ?_, fun he => ?_, fun _ => rfl⟩
  · rw [key, if_neg hne, List.take_of_length_le hlen]
  · rw [key, if_pos he]

/-- Witness of C12: the text "Invalid handle" is read back as it was set. -/
theorem memdl_error_reads_slot_witness :
    memdl_error (memdl_set_error "Invalid handle" "") = "Invalid handle" :=
  (memdl_error_reads_slot "Invalid handle" "").2.2.1 (by decide) (by decide)

/-! ## Independence of the host byte order -/

theorem magic_accept_swap (a b c d : Byte) :
    (a.val + 256 * b.val + 65536 * c.val + 16777216 * d.val = 0xFEEDFACE ∨
      a.val + 256 * b.val + 65536 * c.val + 16777216 * d.val = 0xFEEDFACF ∨
      a.val + 256 * b.val + 65536 * c.val + 16777216 * d.val = 0xCEFAEDFE ∨
      a.val + 256 * b.val + 65536 * c.val + 16777216 * d.val = 0xCFFAEDFE) ↔
    (d.val + 256 * c.val + 65536 * b.val + 16777216 * a.val = 0xFEEDFACE ∨
      d.val + 256 * c.val + 65536 * b.val + 16777216 * a.val = 0xFEEDFACF ∨
      d.val + 256 * c.val + 65536 * b.val + 16777216 * a.val = 0xCEFAEDFE ∨
      d.val + 256 * c.val + 65536 * b.val + 16777216 * a.val = 0xCFFAEDFE) := by
  omega

theorem load_u32_short (host : Endian) (data : List Byte) (h : data.length < 4) :
    load_u32 host data = none := by
  rcases data with _ | ⟨a, _ | ⟨b, _ | ⟨c, _ | ⟨d, rest⟩⟩⟩⟩
  · simp [load_u32]
  · simp [load_u32]
  · simp [load_u32]
  · simp [load_u32]
  · simp only [List.length_cons] at h
    omega

theorem validate_host_indep (so_data : Option (List Byte)) (so_size : Nat) (err : String) :
    memdl_validate Endian.little so_data so_size err
      = memdl_validate Endian.big so_data so_size err := by
  cases so_data with
  | none => rfl
  | some data =>
    by_cases hn : so_size < 4
    · rw [validate_short _ data so_size err hn, validate_short _ data so_size err hn]
    · by_cases hlen : data.length < 4
      · simp only [memdl_validate, hn, if_false, load_u32_short _ data hlen]
      · obtain ⟨a, b, c, d, rest, rfl⟩ :
            ∃ a b c d rest, data = a :: b :: c :: d :: rest := by
          rcases data with _ | ⟨a, _ | ⟨b, _ | ⟨c, _ | ⟨d, rest⟩⟩⟩⟩ <;> simp at hlen
          exact ⟨a, b, c, d, rest, rfl⟩
        have h4 : 4 ≤ so_size := by omega
        rw [validate_cons4 _ a b c d rest so_size err h4,
          validate_cons4 _ a b c d rest so_size err h4]
        simp only [load_u32_cons4, Option.some.injEq, exists_eq_left', magic_accept_swap a b c d]

/-- C13: `memdl_validate` gives the same result (return value and error slot) on a
little-endian and on a big-endian host, for every buffer and size, in particular for
every buffer of length at least 4: the word loaded from four bytes in one byte order
is accepted exactly when the word loaded in the other byte order is, since the word
of the reversed bytes in one order is the word of the bytes in the other order and the
four accepted constants are closed under reversal of their bytes.  The return value
does not depend on the content of the error slot either, so two calls on the same
bytes return the same value. -/
theorem memdl_validate_host_independent (so_data : Option (List Byte)) (so_size : Nat)
    (err : String) :
    memdl_validate Endian.little so_data so_size err
      = memdl_validate Endian.big so_data so_size err ∧
    (∀ data : List Byte, 4 ≤ data.length →
      memdl_validate Endian.little (some data) data.length err
        = memdl_validate Endian.big (some data) data.length err) ∧
    (∀ a b c d : Byte,
      load_u32 Endian.little [a, b, c, d] = load_u32 Endian.big [d, c, b, a] ∧
      ((∃ m, load_u32 Endian.little [a, b, c, d] = some m ∧
          (m = 0xFEEDFACE ∨ m = 0xFEEDFACF ∨ m = 0xCEFAEDFE ∨ m = 0xCFFAEDFE)) ↔
        (∃ m, load_u32 Endian.big [a, b, c, d] = some m ∧
          (m = 0xFEEDFACE ∨ m = 0xFEEDFACF ∨ m = 0xCEFAEDFE ∨ m = 0xCFFAEDFE)))) ∧
    (∀ (host : Endian) (e1 e2 : String),
      (memdl_validate host so_data so_size e1).map Prod.fst
        = (memdl_validate host so_data so_size e2).map Prod.fst) := by
  refine ⟨validate_host_indep so_data so_size err,
    fun data _ => validate_host_indep (some data) data.length err,
    fun a b c d => ⟨by simp [load_u32], ?_⟩, fun host e1 e2 => ?_⟩
  · simp only [load_u32_cons4, Option.some.injEq, exists_eq_left']
    exact magic_accept_swap a b c d
  · rcases validate_outcome host so_data so_size with hv | hv | hv | hv <;>
      simp [hv]

/-- Witness of C13: the four bytes CF FA ED FE followed by zeros are accepted on both
hosts, and the four bytes 12 34 56 78 are rejected on both. -/
theorem memdl_validate_host_independent_witness :
    memdl_validate Endian.little (some [0xCF, 0xFA, 0xED, 0xFE, 0, 0]) 6 ""
      = memdl_validate Endian.big (some [0xCF, 0xFA, 0xED, 0xFE, 0, 0]) 6 "" ∧
    memdl_validate Endian.big (some [0xCF, 0xFA, 0xED, 0xFE, 0, 0]) 6 "" = some (0, "") ∧
    memdl_validate Endian.little (some [0x12, 0x34, 0x56, 0x78]) 4 ""
      = memdl_validate Endian.big (some [0x12, 0x34, 0x56, 0x78]) 4 "" :=
  ⟨(memdl_validate_host_independent (some [0xCF, 0xFA, 0xED, 0xFE, 0, 0]) 6 "").2.1
      [0xCF, 0xFA, 0xED, 0xFE, 0, 0] (by decide),
   by decide,
   (memdl_validate_host_independent (some [0x12, 0x34, 0x56, 0x78]) 4 "").2.1
      [0x12, 0x34, 0x56, 0x78] (by decide)⟩

/-! ## Reads of `memdl_get_arch` past the end of the buffer -/

theorem get_arch_four_bytes (host : Endian) (a b c d : Byte) (err : String) :
    memdl_get_arch host (some [a, b, c, d]) 4 err = none
      ↔ (a = 0x7F ∧ b = 0x45 ∧ c = 0x4C ∧ d = 0x46) := by
  unfold memdl_get_arch
  rw [validate_cons4 host a b c d [] 4 err (le_refl 4)]
  by_cases helf : a = 0x7F ∧ b = 0x45 ∧ c = 0x4C ∧ d = 0x46
  · simp [helf, elf_magic_cons4]
  · simp only [helf, false_or, elf_magic_cons4, iff_false]
    split_ifs with hc <;> simp [helf]

theorem get_arch_five_bytes (host : Endian) (a b c d e : Byte) (rest : List Byte)
    (err : String) :
    memdl_get_arch host (some (a :: b :: c :: d :: e :: rest))
      (a :: b :: c :: d :: e :: rest).length err ≠ none := by
  have h4 : 4 ≤ (a :: b :: c :: d :: e :: rest).length := by simp
  unfold memdl_get_arch
  rw [validate_cons4 host a b c d (e :: rest) _ err h4]
  by_cases helf : a = 0x7F ∧ b = 0x45 ∧ c = 0x4C ∧ d = 0x46
  · simp [helf, elf_magic_cons4]
  · simp only [helf, false_or, elf_magic_cons4]
    split_ifs with hc <;> simp [helf]

/-- C14 (the code at the failing input): the buffer that consists of exactly the four ELF
magic bytes, passed with `so_size = 4`, is accepted by `memdl_validate`, and
`memdl_get_arch` then reads `data[4]`, an index that is not below `so_size`: the buffer
has no byte at index 4 and the result of `memdl_get_arch` is undefined.  This is the
only buffer, passed with its length, on which a read of `memdl_get_arch` leaves the
buffer. -/
theorem memdl_get_arch_reads_past_buffer (host : Endian) (err : String) :
    memdl_validate host (some [0x7F, 0x45, 0x4C, 0x46]) 4 err = some (0, err) ∧
    ([0x7F, 0x45, 0x4C, 0x46] : List Byte)[4]? = none ∧
    memdl_get_arch host (some [0x7F, 0x45, 0x4C, 0x46]) 4 err = none ∧
    (∀ data : List Byte,
      memdl_get_arch host (some data) data.length err = none
        ↔ data = [0x7F, 0x45, 0x4C, 0x46]) := by
  refine ⟨?_, rfl, (get_arch_four_bytes host _ _ _ _ err).mpr ⟨rfl, rfl, rfl, rfl⟩,
    fun data => ?_⟩
  · rw [validate_cons4 host _ _ _ _ [] 4 err (le_refl 4)]
    simp
  · rcases data with _ | ⟨a, _ | ⟨b, _ | ⟨c, _ | ⟨d, _ | ⟨e, rest⟩⟩⟩⟩⟩
    · simp [memdl_get_arch, memdl_validate]
    · simp [memdl_get_arch, memdl_validate]
    · simp [memdl_get_arch, memdl_validate]
    · simp [memdl_get_arch, memdl_validate]
    · have h := get_arch_four_bytes host a b c d err
      simp only [List.length_cons, List.length_nil] at h ⊢
      rw [h]
      simp
    · have h := get_arch_five_bytes host a b c d e rest err
      simp only [h, false_iff]
      simp
